import Mathlib

/-! fastdns: response construction (record.go, handler.go, writer.go)

A shallow embedding of the DNS response builders of the repository.

Conventions of the embedding.
* A Go `[]byte`, `string` or `net.IP` is a `List Nat`; every element stands for one byte.
* A Go `byte`, `uint16`, `uint32` or `int` value is a `Nat`.  Where Go truncates
  (a conversion `byte(x)`, a shift performed on a `byte`), the embedding writes the
  truncation `% 256` explicitly.  A field that already has type `byte` is used as is.
* An index expression that can go out of range in Go (`ip4[3]`, `ip[15]`) makes the
  function return `none`.
-/

namespace Fastdns

/-! ## Data model -/

/-- Modelled from the spec: the `Header` type is declared in a file that is not
part of the sources at hand; its field names and order are those of the struct
literals in `handler_test.go`.  `ID` and the four counts are `uint16`, the
bit fields `QR`, `AA`, `TC`, `RD`, `RA`, `Z` are `byte`, `Opcode` and `RCODE`
are small integer types that record.go converts with `byte(...)`. -/
structure Header where
  ID : Nat
  QR : Nat
  Opcode : Nat
  AA : Nat
  TC : Nat
  RD : Nat
  RA : Nat
  Z : Nat
  RCODE : Nat
  QDCount : Nat
  ANCount : Nat
  NSCount : Nat
  ARCount : Nat
  deriving DecidableEq, Repr

/-- Modelled from the spec: the `Question` type (wire-encoded name, 16-bit type,
16-bit class); its declaration is not part of the sources at hand.  The Go field
`Type` is written `Type_`, since `Type` is reserved. -/
structure Question where
  Name : List Nat
  Type_ : Nat
  Class : Nat
  deriving DecidableEq, Repr

/-- Modelled from the spec: the `Message` type (`Raw`, `Domain`, `Header`,
`Question`), in the field order of the struct literals in `handler_test.go`. -/
structure Message where
  Raw : List Nat
  Domain : List Nat
  Header : Header
  Question : Question
  deriving DecidableEq, Repr

/-- MXRecord represents an DNS MXRecord contains Priority and Host (record.go). -/
structure MXRecord where
  Priority : Nat
  Host : List Nat
  deriving DecidableEq, Repr

/-! ## Constants declared outside the sources at hand -/

/-- Modelled from the spec: record type A (value 1, as in the vector of `TestHandlerHost`). -/
def TypeA : Nat := 1
/-- Modelled from the spec: record type CNAME (value 5, as in the vector of `TestHandlerCNAME`). -/
def TypeCNAME : Nat := 5
/-- Modelled from the spec: record type PTR (value 12, as in the vector of `TestHandlerPTR`). -/
def TypePTR : Nat := 12
/-- Modelled from the spec: record type MX (value 15, as in the vector of `TestHandlerMX`). -/
def TypeMX : Nat := 15
/-- Modelled from the spec: record type TXT (value 16, as in the vector of `TestHandlerTXT`). -/
def TypeTXT : Nat := 16
/-- Modelled from the spec: record type AAAA (value 28, the standard DNS number). -/
def TypeAAAA : Nat := 28
/-- Modelled from the spec: record type SRV (value 33, as in the vector of `TestHandlerSRV`). -/
def TypeSRV : Nat := 33
/-- Modelled from the spec: class IN (value 1, as in the test vectors). -/
def ClassINET : Nat := 1
/-- Modelled from the spec: response code "no error" (value 0, as in the test vectors). -/
def RcodeSuccess : Nat := 0
/-- Modelled from the spec: response code "name error" (value 3, as in the vector of
`TestHandlerError`). -/
def RcodeNameError : Nat := 3

/-! ## Helpers that the sources call but do not define -/

/-- The dot-separated labels of a name (`46` is the byte of `.`). -/
def splitLabels : List Nat → List (List Nat)
  | [] => [[]]
  | c :: cs =>
    if c = 46 then [] :: splitLabels cs
    else
      match splitLabels cs with
      | [] => [[c]]
      | l :: ls => (c :: l) :: ls

/-- Modelled from the spec: `EncodeDomain` is called by record.go but is not defined in the
sources at hand.  It is the standard name encoding: every dot-separated label is
prefixed by its length byte, and a `0x00` terminator follows the last label. -/
def EncodeDomain (dst : List Nat) (domain : List Nat) : List Nat :=
  dst ++ (splitLabels domain).flatMap (fun l => (l.length % 256) :: l) ++ [0]

/-- The Go standard library function `net.IP.To4`: a 4-byte address is returned as is,
a 16-byte IPv4-mapped address (ten zero bytes, then `0xff 0xff`) gives its last four
bytes, anything else gives `nil` (here `none`). -/
def To4 (ip : List Nat) : Option (List Nat) :=
  if ip.length = 4 then some ip
  else if ip.length = 16 ∧ (ip.take 10).all (fun b => b == 0) ∧
      ip.getD 10 0 = 0xff ∧ ip.getD 11 0 = 0xff then
    some ((ip.drop 12).take 4)
  else none

/-! ## record.go -/

/-- AppendHeaderQuestion appends the dns request to dst with the specified
QDCount/ANCount/NSCount/ARCount (record.go, lines 7-63). -/
def AppendHeaderQuestion (dst : List Nat) (msg : Message) (rcode : Nat)
    (qd an ns ar : Nat) : List Nat :=
  -- ID
  let h0 := (msg.Header.ID >>> 8) % 256
  let h1 := (msg.Header.ID &&& 0xff) % 256
  -- QR, Opcode, AA, TC, RD
  let b := (1 <<< (7 - 0)) % 256
  let b := b ||| ((msg.Header.Opcode % 256) <<< (7 - (1 + 3))) % 256
  let b := b ||| (msg.Header.AA <<< (7 - 5)) % 256
  let b := b ||| (msg.Header.TC <<< (7 - 6)) % 256
  let b := b ||| msg.Header.RD
  let h2 := b
  -- RA, Z, RCODE
  let b := (msg.Header.RA <<< (7 - 0)) % 256
  let b := b ||| (msg.Header.Z <<< (7 - 1)) % 256
  let b := b ||| ((rcode % 256) <<< (7 - (4 + 3))) % 256
  let h3 := b
  let header : List Nat :=
    [h0, h1, h2, h3,
     (qd >>> 8) % 256, (qd &&& 0xff) % 256,
     (an >>> 8) % 256, (an &&& 0xff) % 256,
     (ns >>> 8) % 256, (ns &&& 0xff) % 256,
     (ar >>> 8) % 256, (ar &&& 0xff) % 256]
  let dst := dst ++ header
  -- question
  if qd ≠ 0 then
    let dst := dst ++ msg.Question.Name
    let dst := dst ++ [(msg.Question.Type_ >>> 8) % 256, (msg.Question.Type_ &&& 0xff) % 256]
    let dst := dst ++ [(msg.Question.Class >>> 8) % 256, (msg.Question.Class &&& 0xff) % 256]
    dst
  else
    dst

/-- AppendHostRecord appends the Host records to dst and returns the resulting dst
(record.go, lines 65-113).  The result is `none` when an index is out of range. -/
def AppendHostRecord (dst : List Nat) (msg : Message) : List (List Nat) → Nat → Option (List Nat)
  | [], _ => some dst
  | ip :: ips, ttl =>
    match To4 ip with
    | some ip4 =>
      match ip4[3]? with
      | none => none
      | some _ =>
        AppendHostRecord
          (dst ++
            [0xc0, 0x0c,
             0x00, TypeA % 256,
             (msg.Question.Class >>> 8) % 256, msg.Question.Class % 256,
             (ttl >>> 24) % 256, (ttl >>> 16) % 256, (ttl >>> 8) % 256, ttl % 256,
             0x00, 0x04,
             ip4.getD 0 0, ip4.getD 1 0, ip4.getD 2 0, ip4.getD 3 0])
          msg ips ttl
    | none =>
      match ip[15]? with
      | none => none
      | some _ =>
        AppendHostRecord
          (dst ++
            [0xc0, 0x0c,
             0x00, TypeAAAA % 256,
             (msg.Question.Class >>> 8) % 256, msg.Question.Class % 256,
             (ttl >>> 24) % 256, (ttl >>> 16) % 256, (ttl >>> 8) % 256, ttl % 256,
             0x00, 0x10,
             ip.getD 0 0, ip.getD 1 0, ip.getD 2 0, ip.getD 3 0,
             ip.getD 4 0, ip.getD 5 0, ip.getD 6 0, ip.getD 7 0,
             ip.getD 8 0, ip.getD 9 0, ip.getD 10 0, ip.getD 11 0,
             ip.getD 12 0, ip.getD 13 0, ip.getD 14 0, ip.getD 15 0])
          msg ips ttl

/-- The first loop of `AppendCNameRecord` (record.go, lines 119-143): one CNAME record per
target.  The state of the loop is the index `i`, the buffer `dst` and the running
`offset`; the result is the buffer and the offset after the last iteration. -/
def AppendCNameRecord.cnames (msg : Message) (ttl : Nat) :
    Nat → List (List Nat) → List Nat → Nat → List Nat × Nat
  | _, [], dst, offset => (dst, offset)
  | i, cname :: rest, dst, offset =>
    let answer : List Nat :=
      [0xc0 ||| ((offset >>> 8) % 256), offset % 256,
       0x00, TypeCNAME % 256,
       (msg.Question.Class >>> 8) % 256, msg.Question.Class % 256,
       (ttl >>> 24) % 256, (ttl >>> 16) % 256, (ttl >>> 8) % 256, ttl % 256,
       0x00, (cname.length + 2) % 256]
    let dst := dst ++ answer
    -- set offset
    let offset :=
      if i = 0 then offset + (msg.Question.Name.length + 2 + 2)
      else offset + (cname.length + 2)
    let offset := offset + answer.length
    -- RDATA
    let dst := EncodeDomain dst cname
    AppendCNameRecord.cnames msg ttl (i + 1) rest dst offset

/-- The second loop of `AppendCNameRecord` (record.go, lines 144-188): one address record
per address, its owner name being the pointer to `offset`.  The result is `none` when
an index is out of range. -/
def AppendCNameRecord.hosts (msg : Message) (ttl : Nat) (offset : Nat) :
    List (List Nat) → List Nat → Option (List Nat)
  | [], dst => some dst
  | ip :: ips, dst =>
    match To4 ip with
    | some ip4 =>
      match ip4[3]? with
      | none => none
      | some _ =>
        AppendCNameRecord.hosts msg ttl offset ips
          (dst ++
            [0xc0 ||| ((offset >>> 8) % 256), offset % 256,
             0x00, TypeA % 256,
             (msg.Question.Class >>> 8) % 256, msg.Question.Class % 256,
             (ttl >>> 24) % 256, (ttl >>> 16) % 256, (ttl >>> 8) % 256, ttl % 256,
             0x00, 0x04,
             ip4.getD 0 0, ip4.getD 1 0, ip4.getD 2 0, ip4.getD 3 0])
    | none =>
      match ip[15]? with
      | none => none
      | some _ =>
        AppendCNameRecord.hosts msg ttl offset ips
          (dst ++
            [0xc0 ||| ((offset >>> 8) % 256), offset % 256,
             0x00, TypeAAAA % 256,
             (msg.Question.Class >>> 8) % 256, msg.Question.Class % 256,
             (ttl >>> 24) % 256, (ttl >>> 16) % 256, (ttl >>> 8) % 256, ttl % 256,
             0x00, 0x10,
             ip.getD 0 0, ip.getD 1 0, ip.getD 2 0, ip.getD 3 0,
             ip.getD 4 0, ip.getD 5 0, ip.getD 6 0, ip.getD 7 0,
             ip.getD 8 0, ip.getD 9 0, ip.getD 10 0, ip.getD 11 0,
             ip.getD 12 0, ip.getD 13 0, ip.getD 14 0, ip.getD 15 0])

/-- AppendCNameRecord appends the CNAME and Host records to dst and returns the resulting
dst (record.go, lines 115-191). -/
def AppendCNameRecord (dst : List Nat) (msg : Message) (cnames : List (List Nat))
    (ips : List (List Nat)) (ttl : Nat) : Option (List Nat) :=
  let offset := 0x0c
  let r := AppendCNameRecord.cnames msg ttl 0 cnames dst offset
  AppendCNameRecord.hosts msg ttl r.2 ips r.1

/-- AppendSRVRecord appends the SRV records to dst and returns the resulting dst
(record.go, lines 193-221). -/
def AppendSRVRecord (dst : List Nat) (msg : Message) (srv : List Nat)
    (priovrity weight port : Nat) (ttl : Nat) : List Nat :=
  let length := 8 + srv.length
  let answer : List Nat :=
    [0xc0, 0x0c,
     0x00, TypeSRV % 256,
     (msg.Question.Class >>> 8) % 256, msg.Question.Class % 256,
     (ttl >>> 24) % 256, (ttl >>> 16) % 256, (ttl >>> 8) % 256, ttl % 256,
     (length >>> 8) % 256, length % 256,
     (priovrity >>> 8) % 256, priovrity % 256,
     (weight >>> 8) % 256, weight % 256,
     (port >>> 8) % 256, port % 256]
  let dst := dst ++ answer
  -- RDATA
  let dst := EncodeDomain dst srv
  dst

/-- AppendMXRecord appends the MX records to dst and returns the resulting dst
(record.go, lines 229-255). -/
def AppendMXRecord (dst : List Nat) (msg : Message) : List MXRecord → Nat → List Nat
  | [], _ => dst
  | rr :: mx, ttl =>
    let length := 4 + rr.Host.length
    let answer : List Nat :=
      [0xc0, 0x0c,
       0x00, TypeMX % 256,
       (msg.Question.Class >>> 8) % 256, msg.Question.Class % 256,
       (ttl >>> 24) % 256, (ttl >>> 16) % 256, (ttl >>> 8) % 256, ttl % 256,
       (length >>> 8) % 256, length % 256,
       (rr.Priority >>> 8) % 256, rr.Priority % 256]
    let dst := dst ++ answer
    -- RDATA
    let dst := EncodeDomain dst rr.Host
    AppendMXRecord dst msg mx ttl

/-- AppendPTRRecord appends the PTR records to dst and returns the resulting dst
(record.go, lines 257-277). -/
def AppendPTRRecord (dst : List Nat) (msg : Message) (ptr : List Nat) (ttl : Nat) :
    List Nat :=
  let answer : List Nat :=
    [0xc0, 0x0c,
     0x00, TypePTR % 256,
     (msg.Question.Class >>> 8) % 256, msg.Question.Class % 256,
     (ttl >>> 24) % 256, (ttl >>> 16) % 256, (ttl >>> 8) % 256, ttl % 256,
     00, (2 + ptr.length) % 256]
  let dst := dst ++ answer
  -- PTR
  let dst := EncodeDomain dst ptr
  dst

/-- The loop `for len(txt) > 0xff` of `AppendTXTRecord` (record.go, lines 297-303); the
result is the buffer and the rest of the text when the loop is left.  Every iteration
shortens the text by 255 bytes, so the loop terminates. -/
def AppendTXTRecord.loop (dst txt : List Nat) : List Nat × List Nat :=
  if 0xff < txt.length then
    AppendTXTRecord.loop ((dst ++ [0xff]) ++ txt.take 0xff) (txt.drop 0xff)
  else (dst, txt)
termination_by txt.length
decreasing_by
  simp only [List.length_drop]
  omega

/-- AppendTXTRecord appends the TXT records to dst and returns the resulting dst
(record.go, lines 279-311). -/
def AppendTXTRecord (dst : List Nat) (msg : Message) (txt : List Nat) (ttl : Nat) :
    List Nat :=
  let length := txt.length + (txt.length + 0xff) / 0x100
  let answer : List Nat :=
    [0xc0, 0x0c,
     0x00, TypeTXT % 256,
     (msg.Question.Class >>> 8) % 256, msg.Question.Class % 256,
     (ttl >>> 24) % 256, (ttl >>> 16) % 256, (ttl >>> 8) % 256, ttl % 256,
     (length >>> 8) % 256, length % 256]
  let dst := dst ++ answer
  let r := AppendTXTRecord.loop dst txt
  let dst := r.1
  let txt := r.2
  -- TXT Length
  let dst := dst ++ [txt.length % 256]
  -- TXT
  let dst := dst ++ txt
  dst

/-! ## writer.go -/

/-- A network address (`net.Addr` of the Go standard library), kept abstract. -/
structure Addr where
  network : String
  address : String
  deriving DecidableEq, Repr

/-- A ResponseWriter interface is used by an DNS handler to construct an DNS response
(writer.go, lines 8-18).  `W` is the state of the implementation; `Write` returns the
new state, the byte count and the error. -/
structure ResponseWriter (W : Type) where
  LocalAddr : W → Option Addr
  RemoteAddr : W → Option Addr
  Write : W → List Nat → W × Nat × Option String

/-- The in-memory writer (writer.go, lines 20-24). -/
structure memResponseWriter where
  data : List Nat
  raddr : Option Addr
  laddr : Option Addr
  deriving DecidableEq, Repr

/-- The method `RemoteAddr` of the in-memory writer (writer.go, lines 26-28). -/
def memResponseWriter.RemoteAddr (rw : memResponseWriter) : Option Addr := rw.raddr

/-- The method `LocalAddr` of the in-memory writer (writer.go, lines 30-32). -/
def memResponseWriter.LocalAddr (rw : memResponseWriter) : Option Addr := rw.laddr

/-- The method `Write` of the in-memory writer (writer.go, lines 34-38). -/
def memResponseWriter.Write (rw : memResponseWriter) (p : List Nat) :
    memResponseWriter × Nat × Option String :=
  ({ rw with data := rw.data ++ p }, p.length, none)

/-- The in-memory writer as an implementation of the interface. -/
def memWriter : ResponseWriter memResponseWriter where
  LocalAddr := memResponseWriter.LocalAddr
  RemoteAddr := memResponseWriter.RemoteAddr
  Write := memResponseWriter.Write

/-! ## handler.go

The handlers mutate `req.Raw` and call `rw.Write`; the embedding returns the new state
of the writer and the new request.  handler.go passes `ttl` before the record data to
the appenders, record.go declares it last: the embedding passes every argument to the
parameter of record.go that it is meant for. -/

/-- Error replies to the request with the specified Rcode (handler.go, lines 12-16). -/
def Error {W : Type} (I : ResponseWriter W) (rw : W) (req : Message) (code : Nat) :
    W × Message :=
  let req := { req with Raw := AppendHeaderQuestion (req.Raw.take 0) req code 0 0 0 0 }
  ((I.Write rw req.Raw).1, req)

/-- HOST replies to the request with the specified Host records (handler.go, lines 18-23). -/
def HOST {W : Type} (I : ResponseWriter W) (rw : W) (req : Message) (ttl : Nat)
    (ips : List (List Nat)) : Option (W × Message) :=
  let req := { req with
    Raw := AppendHeaderQuestion (req.Raw.take 0) req RcodeSuccess 1 (ips.length % 65536) 0 0 }
  match AppendHostRecord req.Raw req ips ttl with
  | none => none
  | some raw =>
    let req := { req with Raw := raw }
    some ((I.Write rw req.Raw).1, req)

/-- CNAME replies to the request with the specified CName and Host records
(handler.go, lines 25-30). -/
def CNAME {W : Type} (I : ResponseWriter W) (rw : W) (req : Message) (ttl : Nat)
    (cnames : List (List Nat)) (ips : List (List Nat)) : Option (W × Message) :=
  let req := { req with
    Raw := AppendHeaderQuestion (req.Raw.take 0) req RcodeSuccess 1
      ((cnames.length + ips.length) % 65536) 0 0 }
  match AppendCNameRecord req.Raw req cnames ips ttl with
  | none => none
  | some raw =>
    let req := { req with Raw := raw }
    some ((I.Write rw req.Raw).1, req)

/-- SRV replies to the request with the specified SRV records (handler.go, lines 46-51). -/
def SRV {W : Type} (I : ResponseWriter W) (rw : W) (req : Message) (ttl : Nat)
    (srv : List Nat) (priovrity weight port : Nat) : W × Message :=
  let req := { req with Raw := AppendHeaderQuestion (req.Raw.take 0) req RcodeSuccess 1 1 0 0 }
  let req := { req with Raw := AppendSRVRecord req.Raw req srv priovrity weight port ttl }
  ((I.Write rw req.Raw).1, req)

/-- MX replies to the request with the specified MX records (handler.go, lines 53-58). -/
def MX {W : Type} (I : ResponseWriter W) (rw : W) (req : Message) (ttl : Nat)
    (mx : List MXRecord) : W × Message :=
  let req := { req with
    Raw := AppendHeaderQuestion (req.Raw.take 0) req RcodeSuccess 1 (mx.length % 65536) 0 0 }
  let req := { req with Raw := AppendMXRecord req.Raw req mx ttl }
  ((I.Write rw req.Raw).1, req)

/-- PTR replies to the request with the specified PTR records (handler.go, lines 60-65). -/
def PTR {W : Type} (I : ResponseWriter W) (rw : W) (req : Message) (ttl : Nat)
    (ptr : List Nat) : W × Message :=
  let req := { req with Raw := AppendHeaderQuestion (req.Raw.take 0) req RcodeSuccess 1 1 0 0 }
  let req := { req with Raw := AppendPTRRecord req.Raw req ptr ttl }
  ((I.Write rw req.Raw).1, req)

/-- TXT replies to the request with the specified TXT records (handler.go, lines 67-72). -/
def TXT {W : Type} (I : ResponseWriter W) (rw : W) (req : Message) (ttl : Nat)
    (txt : List Nat) : W × Message :=
  let req := { req with Raw := AppendHeaderQuestion (req.Raw.take 0) req RcodeSuccess 1 1 0 0 }
  let req := { req with Raw := AppendTXTRecord req.Raw req txt ttl }
  ((I.Write rw req.Raw).1, req)

/-! ## The wire layout of the two flag bytes, read back -/

/-- Modelled from the spec: the QR flag is bit 7 of header byte 2. -/
def decodeQR (b2 : Nat) : Nat := b2 / 128 % 2
/-- Modelled from the spec: the Opcode is bits 6-3 of header byte 2. -/
def decodeOpcode (b2 : Nat) : Nat := b2 / 8 % 16
/-- Modelled from the spec: the AA flag is bit 2 of header byte 2. -/
def decodeAA (b2 : Nat) : Nat := b2 / 4 % 2
/-- Modelled from the spec: the TC flag is bit 1 of header byte 2. -/
def decodeTC (b2 : Nat) : Nat := b2 / 2 % 2
/-- Modelled from the spec: the RD flag is bit 0 of header byte 2. -/
def decodeRD (b2 : Nat) : Nat := b2 % 2
/-- Modelled from the spec: the RCODE is bits 3-0 of header byte 3. -/
def decodeRCODE (b3 : Nat) : Nat := b3 % 16

/-! ## Records as the specification words them -/

/-- A 16-bit value as two big-endian bytes. -/
def be16 (x : Nat) : List Nat := [x / 256, x % 256]

/-- A 32-bit value as four big-endian bytes. -/
def be32 (x : Nat) : List Nat := [x / 16777216, x / 65536 % 256, x / 256 % 256, x % 256]

/-- A 16-byte IPv4-mapped address: the first ten bytes are zero, bytes 10 and 11 are
`0xFF`. -/
def isIPv4Mapped (ip : List Nat) : Prop :=
  ip.length = 16 ∧ ip.take 10 = List.replicate 10 0 ∧ ip.getD 10 0 = 0xFF ∧ ip.getD 11 0 = 0xFF

instance (ip : List Nat) : Decidable (isIPv4Mapped ip) := by
  unfold isIPv4Mapped
  exact inferInstance

/-- The address record that the specification describes for one address: an A record
with the 4 address bytes when the address is IPv4 (4 bytes, or 16 bytes IPv4-mapped),
otherwise an AAAA record with the 16 address bytes; the owner name is `C0 0C`. -/
def hostRecordSpec (msg : Message) (ttl : Nat) (ip : List Nat) : List Nat :=
  if ip.length = 4 then
    [0xC0, 0x0C, 0x00, 0x01] ++ be16 msg.Question.Class ++ be32 ttl ++ [0x00, 0x04] ++ ip
  else if isIPv4Mapped ip then
    [0xC0, 0x0C, 0x00, 0x01] ++ be16 msg.Question.Class ++ be32 ttl ++ [0x00, 0x04]
      ++ ip.drop 12
  else
    [0xC0, 0x0C, 0x00, 0x1C] ++ be16 msg.Question.Class ++ be32 ttl ++ [0x00, 0x10] ++ ip

/-- A resource record as the specification lays it out: a 2-byte name pointer (the two
top bits of its first byte are set), 2-byte type, 2-byte class, 4-byte TTL, 2-byte
big-endian RDLENGTH, and exactly RDLENGTH bytes of RDATA. -/
def IsRecord (r : List Nat) : Prop :=
  12 ≤ r.length ∧ 192 ≤ r.getD 0 0 ∧ r.length = 12 + (r.getD 10 0 * 256 + r.getD 11 0)

/-- Splitting `n` consecutive resource records off the front of a byte sequence; the result
is the bytes left over, or `none` when the bytes do not begin with `n` records. -/
def splitRecords : Nat → List Nat → Option (List Nat)
  | 0, bs => some bs
  | n + 1, bs =>
    if 12 ≤ bs.length ∧ 192 ≤ bs.getD 0 0
        ∧ 12 + (bs.getD 10 0 * 256 + bs.getD 11 0) ≤ bs.length then
      splitRecords n (bs.drop (12 + (bs.getD 10 0 * 256 + bs.getD 11 0)))
    else none

/-- A reply to `req` with `an` answers: the reply is the 12-byte header and the question
that `AppendHeaderQuestion` writes for rcode 0 and the counts 1, `an`, 0, 0, followed by
the bytes `records`; header and question take `12 + len(Name) + 4` bytes, the big-endian
ANCount in header bytes 6-7 is `an`, the question name stands at offset 12, and `records`
split into exactly `an` resource records with no bytes left over. -/
def answersSplit (req : Message) (an : Nat) (reply : List Nat) : Prop :=
  ∃ records : List Nat,
    reply = AppendHeaderQuestion [] req RcodeSuccess 1 an 0 0 ++ records
    ∧ (AppendHeaderQuestion [] req RcodeSuccess 1 an 0 0).length
        = 12 + req.Question.Name.length + 4
    ∧ reply.getD 6 0 * 256 + reply.getD 7 0 = an
    ∧ (reply.drop 12).take req.Question.Name.length = req.Question.Name
    ∧ splitRecords an records = some []

/-- The frame of a reply builder `run` on the request `req` with the writer `rw`: the call
returns, it leaves `Header`, `Domain` and `Question` of the request as they were, the
new `Raw` is exactly what one `Write` on `rw` received, and a request that differs from
`req` only in `Raw` gives the same result. -/
def ReplyFrame {W : Type} (I : ResponseWriter W) (rw : W) (req : Message)
    (run : Message → Option (W × Message)) : Prop :=
  ∃ out, run req = some out
    ∧ out.2.Header = req.Header ∧ out.2.Domain = req.Domain ∧ out.2.Question = req.Question
    ∧ out.1 = (I.Write rw out.2.Raw).1
    ∧ ∀ raw : List Nat, run { req with Raw := raw } = some out

/-! ## Test data (handler_test.go) -/

/-- The bytes of an ASCII string. -/
def bytesOf (s : String) : List Nat := s.toList.map Char.toNat

/-- The request of the handler tests (`mockHandlerMessage`, handler_test.go, lines 9-32):
question `hk.phus.lu`, type A, class IN, ID 2, RD = 1. -/
def mockHandlerMessage : Message where
  Raw := []
  Domain := bytesOf "hk.phus.lu"
  Header :=
    { ID := 0x0002, QR := 0x00, Opcode := 0x0000, AA := 0x00, TC := 0x00, RD := 0x01,
      RA := 0x00, Z := 0x00, RCODE := 0x00,
      QDCount := 0x01, ANCount := 0x00, NSCount := 0x00, ARCount := 0x00 }
  Question :=
    { Name := [2, 0x68, 0x6b, 4, 0x70, 0x68, 0x75, 0x73, 2, 0x6c, 0x75, 0],
      Type_ := TypeA, Class := ClassINET }

/-! ## Arithmetic of bytes -/

theorem shr8_byte (x : Nat) (h : x < 65536) : (x >>> 8) % 256 = x / 256 := by
  rw [Nat.shiftRight_eq_div_pow]
  omega

theorem and_ff_byte (x : Nat) : (x &&& 0xff) % 256 = x % 256 := by
  have h : x &&& 0xff = x % 256 := Nat.and_pow_two_sub_one_eq_mod x 8
  rw [h]; omega

theorem lor_mod_two_pow (a b n : Nat) : (a ||| b) % 2 ^ n = a % 2 ^ n ||| b % 2 ^ n := by
  apply Nat.eq_of_testBit_eq
  intro i
  simp only [Nat.testBit_mod_two_pow, Nat.testBit_or]
  cases decide (i < n) <;> simp

theorem lor_bit7 (x : Nat) : (128 ||| x) / 128 % 2 = 1 := by
  have h : (128 ||| x).testBit 7 = true := by
    rw [Nat.testBit_or]; simp; left; decide
  rw [Nat.testBit_to_div_mod] at h
  simpa using h

theorem flags3_low (ra z rcode : Nat) (h : rcode < 16) :
    ((ra <<< (7 - 0)) % 256 ||| (z <<< (7 - 1)) % 256
      ||| ((rcode % 256) <<< (7 - (4 + 3))) % 256) % 16 = rcode := by
  have e : (16 : Nat) = 2 ^ 4 := rfl
  rw [e, lor_mod_two_pow, lor_mod_two_pow]
  simp only [Nat.shiftLeft_eq]
  have h1 : ra * 2 ^ (7 - 0) % 256 % 2 ^ 4 = 0 := by norm_num; omega
  have h2 : z * 2 ^ (7 - 1) % 256 % 2 ^ 4 = 0 := by norm_num; omega
  have h3 : rcode % 256 * 2 ^ (7 - (4 + 3)) % 256 % 2 ^ 4 = rcode := by norm_num; omega
  rw [h1, h2, h3]; simp

theorem flags2_eq (op aa tc rd : Nat) (hop : op < 16) (haa : aa ≤ 1) (htc : tc ≤ 1)
    (hrd : rd ≤ 1) :
    (1 <<< (7 - 0)) % 256 ||| ((op % 256) <<< (7 - (1 + 3))) % 256 ||| (aa <<< (7 - 5)) % 256
      ||| (tc <<< (7 - 6)) % 256 ||| rd = 128 + op * 8 + aa * 4 + tc * 2 + rd := by
  interval_cases op <;> interval_cases aa <;> interval_cases tc <;> interval_cases rd <;> rfl

/-! ## AppendHeaderQuestion -/

/-- The buffer returned by `AppendHeaderQuestion`, written out: `dst`, the twelve header
bytes, and the question when `qd` is not zero. -/
theorem AppendHeaderQuestion_eq (dst : List Nat) (msg : Message) (rcode qd an ns ar : Nat) :
    AppendHeaderQuestion dst msg rcode qd an ns ar
      = dst ++
        [(msg.Header.ID >>> 8) % 256, (msg.Header.ID &&& 0xff) % 256,
         (1 <<< (7 - 0)) % 256 ||| ((msg.Header.Opcode % 256) <<< (7 - (1 + 3))) % 256
            ||| (msg.Header.AA <<< (7 - 5)) % 256 ||| (msg.Header.TC <<< (7 - 6)) % 256
            ||| msg.Header.RD,
         (msg.Header.RA <<< (7 - 0)) % 256 ||| (msg.Header.Z <<< (7 - 1)) % 256
            ||| ((rcode % 256) <<< (7 - (4 + 3))) % 256,
         (qd >>> 8) % 256, (qd &&& 0xff) % 256,
         (an >>> 8) % 256, (an &&& 0xff) % 256,
         (ns >>> 8) % 256, (ns &&& 0xff) % 256,
         (ar >>> 8) % 256, (ar &&& 0xff) % 256] ++
        (if qd = 0 then []
         else msg.Question.Name ++
           [(msg.Question.Type_ >>> 8) % 256, (msg.Question.Type_ &&& 0xff) % 256,
            (msg.Question.Class >>> 8) % 256, (msg.Question.Class &&& 0xff) % 256]) := by
  unfold AppendHeaderQuestion
  by_cases h : qd = 0 <;> simp [h]

/-- C1 (the code departs from the claim): for the header with `RA = 0`, `Z = 1` and
rcode 0, byte 3 written by `AppendHeaderQuestion` is `0x40`; the layout of the claim,
`RA*128 + Z*16 + rcode`, gives `0x10`.  The source shifts `Z` by `7 - 1` where its own
comment places `Z` at bit positions 1 2 3. -/
theorem C1_byte3_at_Z_one :
    (AppendHeaderQuestion []
        { mockHandlerMessage with Header := { mockHandlerMessage.Header with Z := 1 } }
        0 0 0 0 0)[3]? = some 0x40
    ∧ (0x40 : Nat) ≠ 0 * 128 + 1 * 16 + 0 := by
  decide

/-- C2: for `Opcode` in 0..15 and `AA`, `TC`, `RD` in {0,1}, byte 2 of the header written
by `AppendHeaderQuestion` is `128 + Opcode*8 + AA*4 + TC*2 + RD`, whatever
`msg.Header.QR` is; in particular its bit 7 (QR) is set. -/
theorem C2_byte2_layout (dst : List Nat) (msg : Message) (rcode qd an ns ar : Nat)
    (hop : msg.Header.Opcode < 16) (haa : msg.Header.AA ≤ 1) (htc : msg.Header.TC ≤ 1)
    (hrd : msg.Header.RD ≤ 1) :
    (AppendHeaderQuestion dst msg rcode qd an ns ar)[dst.length + 2]?
      = some (128 + msg.Header.Opcode * 8 + msg.Header.AA * 4 + msg.Header.TC * 2
          + msg.Header.RD)
    ∧ decodeQR (128 + msg.Header.Opcode * 8 + msg.Header.AA * 4 + msg.Header.TC * 2
          + msg.Header.RD) = 1 := by
  constructor
  · rw [AppendHeaderQuestion_eq, List.append_assoc, List.getElem?_append_right (by omega)]
    simpa using flags2_eq _ _ _ _ hop haa htc hrd
  · unfold decodeQR
    omega

/-- C2, at the request of the handler tests (QR = 0, RD = 1): byte 2 is `0x81`. -/
theorem C2_byte2_layout_witness :
    mockHandlerMessage.Header.QR = 0
    ∧ (AppendHeaderQuestion [] mockHandlerMessage 0 0 0 0 0)[([] : List Nat).length + 2]?
        = some 0x81 :=
  ⟨by decide,
   (C2_byte2_layout [] mockHandlerMessage 0 0 0 0 0
      (by decide) (by decide) (by decide) (by decide)).1⟩

/-- C3: bytes 0-1 of the header appended by `AppendHeaderQuestion` are `msg.Header.ID` in
big-endian, bytes 4-5, 6-7, 8-9, 10-11 are the caller-supplied `qd`, `an`, `ns`, `ar` in
big-endian, and the counts stored in `msg.Header` have no influence on the output. -/
theorem C3_id_and_counts (dst : List Nat) (msg : Message) (rcode qd an ns ar : Nat)
    (hid : msg.Header.ID < 65536) (hqd : qd < 65536) (han : an < 65536)
    (hns : ns < 65536) (har : ar < 65536) :
    (∃ b2 b3,
      ((AppendHeaderQuestion dst msg rcode qd an ns ar).drop dst.length).take 12
        = [msg.Header.ID / 256, msg.Header.ID % 256, b2, b3,
           qd / 256, qd % 256, an / 256, an % 256,
           ns / 256, ns % 256, ar / 256, ar % 256])
    ∧ ∀ c1 c2 c3 c4 : Nat,
        AppendHeaderQuestion dst
          { msg with Header :=
              { msg.Header with QDCount := c1, ANCount := c2, NSCount := c3, ARCount := c4 } }
          rcode qd an ns ar
        = AppendHeaderQuestion dst msg rcode qd an ns ar := by
  refine ⟨⟨(1 <<< (7 - 0)) % 256 ||| ((msg.Header.Opcode % 256) <<< (7 - (1 + 3))) % 256
            ||| (msg.Header.AA <<< (7 - 5)) % 256 ||| (msg.Header.TC <<< (7 - 6)) % 256
            ||| msg.Header.RD,
         (msg.Header.RA <<< (7 - 0)) % 256 ||| (msg.Header.Z <<< (7 - 1)) % 256
            ||| ((rcode % 256) <<< (7 - (4 + 3))) % 256, ?_⟩, ?_⟩
  · rw [AppendHeaderQuestion_eq, List.append_assoc, List.drop_left]
    simp only [List.cons_append, List.nil_append, List.take_succ_cons, List.take_zero,
      shr8_byte _ hid, shr8_byte _ hqd, shr8_byte _ han, shr8_byte _ hns, shr8_byte _ har,
      and_ff_byte]
  · intro c1 c2 c3 c4
    rfl

/-- C3, at the request of the handler tests with counts 1, 2, 3, 4. -/
theorem C3_id_and_counts_witness :
    ((AppendHeaderQuestion [9] mockHandlerMessage 0 1 2 3 4).drop 1).take 12
      = [0, 2, 0x81, 0, 0, 1, 0, 2, 0, 3, 0, 4]
    ∧ ∀ c1 c2 c3 c4 : Nat,
        AppendHeaderQuestion [9]
          { mockHandlerMessage with Header :=
              { mockHandlerMessage.Header with
                  QDCount := c1, ANCount := c2, NSCount := c3, ARCount := c4 } }
          0 1 2 3 4
        = AppendHeaderQuestion [9] mockHandlerMessage 0 1 2 3 4 :=
  ⟨by decide,
   (C3_id_and_counts [9] mockHandlerMessage 0 1 2 3 4
      (by decide) (by decide) (by decide) (by decide) (by decide)).2⟩

/-- C4: `AppendHeaderQuestion` returns `dst`, then 12 header bytes, then, if and only if
`qd` is not zero, `msg.Question.Name` verbatim followed by the question type and class
as 2-byte big-endian values; it appends 12 bytes when `qd = 0` and
`12 + len(Question.Name) + 4` bytes otherwise. -/
theorem C4_header_then_question (dst : List Nat) (msg : Message) (rcode qd an ns ar : Nat)
    (hty : msg.Question.Type_ < 65536) (hcl : msg.Question.Class < 65536) :
    (∃ header : List Nat, header.length = 12 ∧
      AppendHeaderQuestion dst msg rcode qd an ns ar
        = dst ++ header ++
          (if qd = 0 then []
           else msg.Question.Name ++
             [msg.Question.Type_ / 256, msg.Question.Type_ % 256,
              msg.Question.Class / 256, msg.Question.Class % 256]))
    ∧ (AppendHeaderQuestion dst msg rcode qd an ns ar).length
        = dst.length + (if qd = 0 then 12 else 12 + msg.Question.Name.length + 4) := by
  refine ⟨⟨[(msg.Header.ID >>> 8) % 256, (msg.Header.ID &&& 0xff) % 256,
         (1 <<< (7 - 0)) % 256 ||| ((msg.Header.Opcode % 256) <<< (7 - (1 + 3))) % 256
            ||| (msg.Header.AA <<< (7 - 5)) % 256 ||| (msg.Header.TC <<< (7 - 6)) % 256
            ||| msg.Header.RD,
         (msg.Header.RA <<< (7 - 0)) % 256 ||| (msg.Header.Z <<< (7 - 1)) % 256
            ||| ((rcode % 256) <<< (7 - (4 + 3))) % 256,
         (qd >>> 8) % 256, (qd &&& 0xff) % 256,
         (an >>> 8) % 256, (an &&& 0xff) % 256,
         (ns >>> 8) % 256, (ns &&& 0xff) % 256,
         (ar >>> 8) % 256, (ar &&& 0xff) % 256], rfl, ?_⟩, ?_⟩
  · rw [AppendHeaderQuestion_eq]
    simp only [shr8_byte _ hty, shr8_byte _ hcl, and_ff_byte]
  · rw [AppendHeaderQuestion_eq]
    by_cases h : qd = 0 <;> simp [h]
    omega

/-- C4, at the request of the handler tests: with `qd = 0` only the header is appended,
with `qd = 2` the header and one question. -/
theorem C4_header_then_question_witness :
    (AppendHeaderQuestion [] mockHandlerMessage 0 0 0 0 0).length = 12
    ∧ AppendHeaderQuestion [] mockHandlerMessage 0 2 0 0 0
        = [0, 2, 0x81, 0, 0, 2, 0, 0, 0, 0, 0, 0,
           2, 0x68, 0x6b, 4, 0x70, 0x68, 0x75, 0x73, 2, 0x6c, 0x75, 0, 0, 1, 0, 1]
    ∧ (AppendHeaderQuestion [] mockHandlerMessage 0 2 0 0 0).length
        = ([] : List Nat).length
          + (if 2 = 0 then 12 else 12 + mockHandlerMessage.Question.Name.length + 4) :=
  ⟨by decide, by decide,
   (C4_header_then_question [] mockHandlerMessage 0 2 0 0 0 (by decide) (by decide)).2⟩

/-- C5 (the claim fails for QR): the request of the handler tests has `QR = 0`
(and `RA = Z = 0`, every field in range), yet the QR bit decoded from byte 2 of the
header written by `AppendHeaderQuestion` is 1, not the `QR` that was given. -/
theorem C5_flags_roundtrip_counterexample :
    mockHandlerMessage.Header.QR ≤ 1 ∧ mockHandlerMessage.Header.AA ≤ 1
    ∧ mockHandlerMessage.Header.TC ≤ 1 ∧ mockHandlerMessage.Header.RD ≤ 1
    ∧ mockHandlerMessage.Header.Opcode < 16 ∧ mockHandlerMessage.Header.RCODE < 16
    ∧ mockHandlerMessage.Header.RA = 0 ∧ mockHandlerMessage.Header.Z = 0
    ∧ ¬ (((AppendHeaderQuestion [] mockHandlerMessage mockHandlerMessage.Header.RCODE
            1 0 0 0)[2]?).map decodeQR = some mockHandlerMessage.Header.QR) := by
  decide

/-- C5 (amended): for every `QR`, for `AA`, `TC`, `RD` in {0,1}, `Opcode` and `RCODE` in
0..15 and `RA = Z = 0`, decoding bytes 2 and 3 of the header written by
`AppendHeaderQuestion` (called with rcode = the header's `RCODE`) according to the wire
layout yields the same `Opcode`, `AA`, `TC`, `RD` and `RCODE` that were encoded, and
yields `QR = 1` whatever `QR` was given. -/
theorem C5_flags_roundtrip_amended (dst : List Nat) (msg : Message) (qd an ns ar : Nat)
    (hop : msg.Header.Opcode < 16) (haa : msg.Header.AA ≤ 1) (htc : msg.Header.TC ≤ 1)
    (hrd : msg.Header.RD ≤ 1) (hrc : msg.Header.RCODE < 16)
    (hra : msg.Header.RA = 0) (hz : msg.Header.Z = 0) :
    ∃ b2 b3,
      (AppendHeaderQuestion dst msg msg.Header.RCODE qd an ns ar)[dst.length + 2]? = some b2
      ∧ (AppendHeaderQuestion dst msg msg.Header.RCODE qd an ns ar)[dst.length + 3]? = some b3
      ∧ decodeQR b2 = 1
      ∧ decodeOpcode b2 = msg.Header.Opcode
      ∧ decodeAA b2 = msg.Header.AA
      ∧ decodeTC b2 = msg.Header.TC
      ∧ decodeRD b2 = msg.Header.RD
      ∧ decodeRCODE b3 = msg.Header.RCODE := by
  refine ⟨128 + msg.Header.Opcode * 8 + msg.Header.AA * 4 + msg.Header.TC * 2
      + msg.Header.RD, msg.Header.RCODE, ?_, ?_, ?_, ?_, ?_, ?_, ?_, ?_⟩
  · rw [AppendHeaderQuestion_eq, List.append_assoc, List.getElem?_append_right (by omega)]
    simpa using flags2_eq _ _ _ _ hop haa htc hrd
  · rw [AppendHeaderQuestion_eq, List.append_assoc, List.getElem?_append_right (by omega)]
    have h3 : (msg.Header.RA <<< (7 - 0)) % 256 ||| (msg.Header.Z <<< (7 - 1)) % 256
        ||| ((msg.Header.RCODE % 256) <<< (7 - (4 + 3))) % 256 = msg.Header.RCODE := by
      rw [hra, hz]
      simp only [Nat.shiftLeft_eq]
      norm_num
      omega
    simpa using h3
  · unfold decodeQR; omega
  · unfold decodeOpcode; omega
  · unfold decodeAA; omega
  · unfold decodeTC; omega
  · unfold decodeRD; omega
  · unfold decodeRCODE; omega

/-- C5 (amended), at a header with `QR = 1`, `Opcode = 2`, `AA = 1`, `RD = 1` and
`RCODE = 3`: bytes 2 and 3 are `0x95` and `0x03`, and every field reads back. -/
theorem C5_flags_roundtrip_amended_witness :
    (AppendHeaderQuestion []
        { mockHandlerMessage with Header :=
            { mockHandlerMessage.Header with QR := 1, Opcode := 2, AA := 1, RCODE := 3 } }
        3 1 0 0 0).take 4 = [0, 2, 0x95, 0x03]
    ∧ ∃ b2 b3,
      (AppendHeaderQuestion []
        { mockHandlerMessage with Header :=
            { mockHandlerMessage.Header with QR := 1, Opcode := 2, AA := 1, RCODE := 3 } }
        3 1 0 0 0)[([] : List Nat).length + 2]? = some b2
      ∧ (AppendHeaderQuestion []
        { mockHandlerMessage with Header :=
            { mockHandlerMessage.Header with QR := 1, Opcode := 2, AA := 1, RCODE := 3 } }
        3 1 0 0 0)[([] : List Nat).length + 3]? = some b3
      ∧ decodeQR b2 = 1 ∧ decodeOpcode b2 = 2 ∧ decodeAA b2 = 1 ∧ decodeTC b2 = 0
      ∧ decodeRD b2 = 1 ∧ decodeRCODE b3 = 3 :=
  ⟨by decide,
   C5_flags_roundtrip_amended []
     { mockHandlerMessage with Header :=
         { mockHandlerMessage.Header with QR := 1, Opcode := 2, AA := 1, RCODE := 3 } }
     1 0 0 0 (by decide) (by decide) (by decide) (by decide) (by decide) (by decide)
     (by decide)⟩

/-! ## Error -/

/-- C6: for every request and every rcode in 0..15, `Error` performs exactly one `Write`,
of a 12-byte message: the request's ID, a flag byte with QR = 1, a flag byte whose low
four bits are the rcode, and eight zero bytes (all four counts zero, no question and
no record); `req.Raw` becomes that message. -/
theorem C6_error_reply {W : Type} (I : ResponseWriter W) (rw : W) (req : Message)
    (code : Nat) (hid : req.Header.ID < 65536) (hcode : code < 16) :
    ∃ b2 b3,
      decodeQR b2 = 1 ∧ decodeRCODE b3 = code
      ∧ Error I rw req code
          = ((I.Write rw [req.Header.ID / 256, req.Header.ID % 256, b2, b3,
                0, 0, 0, 0, 0, 0, 0, 0]).1,
             { req with Raw := [req.Header.ID / 256, req.Header.ID % 256, b2, b3,
                0, 0, 0, 0, 0, 0, 0, 0] }) := by
  refine ⟨(1 <<< (7 - 0)) % 256 ||| ((req.Header.Opcode % 256) <<< (7 - (1 + 3))) % 256
            ||| (req.Header.AA <<< (7 - 5)) % 256 ||| (req.Header.TC <<< (7 - 6)) % 256
            ||| req.Header.RD,
         (req.Header.RA <<< (7 - 0)) % 256 ||| (req.Header.Z <<< (7 - 1)) % 256
            ||| ((code % 256) <<< (7 - (4 + 3))) % 256, ?_, ?_, ?_⟩
  · unfold decodeQR
    have e : (1 <<< (7 - 0)) % 256 = 128 := by decide
    rw [e, Nat.lor_assoc, Nat.lor_assoc, Nat.lor_assoc]
    exact lor_bit7 _
  · unfold decodeRCODE
    exact flags3_low _ _ _ hcode
  · unfold Error
    simp only [List.take_zero, AppendHeaderQuestion_eq]
    simp [shr8_byte _ hid, and_ff_byte]

/-- C6, at the request of the handler tests (ID 2, RD = 1) with rcode NameError: the
in-memory writer holds hex `000281030000000000000000`. -/
theorem C6_error_reply_witness :
    (Error memWriter ⟨[], none, none⟩ mockHandlerMessage RcodeNameError).1.data
      = [0x00, 0x02, 0x81, 0x03, 0x00, 0x00, 0x00, 0x00, 0x00, 0x00, 0x00, 0x00]
    ∧ ∃ b2 b3,
      decodeQR b2 = 1 ∧ decodeRCODE b3 = RcodeNameError
      ∧ Error memWriter ⟨[], none, none⟩ mockHandlerMessage RcodeNameError
          = ((memWriter.Write ⟨[], none, none⟩
                [mockHandlerMessage.Header.ID / 256, mockHandlerMessage.Header.ID % 256,
                 b2, b3, 0, 0, 0, 0, 0, 0, 0, 0]).1,
             { mockHandlerMessage with Raw :=
                [mockHandlerMessage.Header.ID / 256, mockHandlerMessage.Header.ID % 256,
                 b2, b3, 0, 0, 0, 0, 0, 0, 0, 0] }) :=
  ⟨by decide,
   C6_error_reply memWriter ⟨[], none, none⟩ mockHandlerMessage RcodeNameError
     (by decide) (by decide)⟩

/-! ## Address records -/

theorem getD_four (ip : List Nat) (h : ip.length = 4) :
    [ip.getD 0 0, ip.getD 1 0, ip.getD 2 0, ip.getD 3 0] = ip := by
  apply List.ext_getElem (by simp [h])
  intro i h1 h2
  simp at h1
  interval_cases i <;> simp [List.getD, List.getElem?_eq_getElem, h]

theorem getD_sixteen (ip : List Nat) (h : ip.length = 16) :
    [ip.getD 0 0, ip.getD 1 0, ip.getD 2 0, ip.getD 3 0,
     ip.getD 4 0, ip.getD 5 0, ip.getD 6 0, ip.getD 7 0,
     ip.getD 8 0, ip.getD 9 0, ip.getD 10 0, ip.getD 11 0,
     ip.getD 12 0, ip.getD 13 0, ip.getD 14 0, ip.getD 15 0] = ip := by
  apply List.ext_getElem (by simp [h])
  intro i h1 h2
  simp at h1
  interval_cases i <;> simp [List.getD, List.getElem?_eq_getElem, h]

theorem To4_of_four (ip : List Nat) (h : ip.length = 4) : To4 ip = some ip := by
  simp [To4, h]

theorem To4_of_mapped (ip : List Nat) (h : isIPv4Mapped ip) :
    To4 ip = some (ip.drop 12) ∧ (ip.drop 12).length = 4 := by
  obtain ⟨h16, hz, h10, h11⟩ := h
  have hall : (ip.take 10).all (fun b => b == 0) = true := by
    rw [hz]; decide
  have hd : (ip.drop 12).length = 4 := by simp [h16]
  refine ⟨?_, hd⟩
  have ht : (ip.drop 12).take 4 = ip.drop 12 := List.take_of_length_le (by omega)
  unfold To4
  rw [if_neg (by omega), if_pos ⟨h16, hall, h10, h11⟩, ht]

theorem To4_of_other (ip : List Nat) (h16 : ip.length = 16) (h : ¬ isIPv4Mapped ip) :
    To4 ip = none := by
  unfold To4
  rw [if_neg (by omega), if_neg]
  rintro ⟨_, hall, h10, h11⟩
  apply h
  refine ⟨h16, ?_, h10, h11⟩
  rw [List.eq_replicate_iff]
  refine ⟨by simp [h16], ?_⟩
  intro b hb
  have := List.all_eq_true.mp hall b hb
  simpa using this

theorem ttl_bytes (ttl : Nat) (h : ttl < 4294967296) :
    [(ttl >>> 24) % 256, (ttl >>> 16) % 256, (ttl >>> 8) % 256, ttl % 256] = be32 ttl := by
  simp only [Nat.shiftRight_eq_div_pow, be32]
  norm_num
  omega

theorem class_bytes (c : Nat) (h : c < 65536) : [(c >>> 8) % 256, c % 256] = be16 c := by
  simp only [Nat.shiftRight_eq_div_pow, be16]
  norm_num
  omega

theorem record_bytes_four (a b t : Nat) (c ttl : Nat) (ip4 : List Nat)
    (hc : c < 65536) (ht : ttl < 4294967296) (h : ip4.length = 4) :
    [a, b, 0x00, t, (c >>> 8) % 256, c % 256,
     (ttl >>> 24) % 256, (ttl >>> 16) % 256, (ttl >>> 8) % 256, ttl % 256,
     0x00, 0x04,
     ip4.getD 0 0, ip4.getD 1 0, ip4.getD 2 0, ip4.getD 3 0]
    = [a, b, 0x00, t] ++ be16 c ++ be32 ttl ++ [0x00, 0x04] ++ ip4 := by
  rw [← class_bytes c hc, ← ttl_bytes ttl ht]
  conv_rhs => rw [← getD_four ip4 h]
  rfl

theorem record_bytes_sixteen (a b t : Nat) (c ttl : Nat) (ip : List Nat)
    (hc : c < 65536) (ht : ttl < 4294967296) (h : ip.length = 16) :
    [a, b, 0x00, t, (c >>> 8) % 256, c % 256,
     (ttl >>> 24) % 256, (ttl >>> 16) % 256, (ttl >>> 8) % 256, ttl % 256,
     0x00, 0x10,
     ip.getD 0 0, ip.getD 1 0, ip.getD 2 0, ip.getD 3 0,
     ip.getD 4 0, ip.getD 5 0, ip.getD 6 0, ip.getD 7 0,
     ip.getD 8 0, ip.getD 9 0, ip.getD 10 0, ip.getD 11 0,
     ip.getD 12 0, ip.getD 13 0, ip.getD 14 0, ip.getD 15 0]
    = [a, b, 0x00, t] ++ be16 c ++ be32 ttl ++ [0x00, 0x10] ++ ip := by
  rw [← class_bytes c hc, ← ttl_bytes ttl ht]
  conv_rhs => rw [← getD_sixteen ip h]
  rfl

/-- One iteration of the loop of `AppendHostRecord` on a well-formed address. -/
theorem AppendHostRecord_cons (dst : List Nat) (msg : Message) (ip : List Nat)
    (ips : List (List Nat)) (ttl : Nat)
    (hc : msg.Question.Class < 65536) (ht : ttl < 4294967296)
    (h : ip.length = 4 ∨ ip.length = 16) :
    AppendHostRecord dst msg (ip :: ips) ttl
      = AppendHostRecord (dst ++ hostRecordSpec msg ttl ip) msg ips ttl := by
  by_cases h4 : ip.length = 4
  · have e3 : ip[3]? = some ip[3] := List.getElem?_eq_getElem (by omega)
    rw [AppendHostRecord, To4_of_four ip h4]
    simp only [e3]
    rw [record_bytes_four _ _ _ _ _ _ hc ht h4]
    simp [hostRecordSpec, h4, TypeA]
  · have h16 : ip.length = 16 := by omega
    by_cases hm : isIPv4Mapped ip
    · obtain ⟨e, hd⟩ := To4_of_mapped ip hm
      have e3 : (ip.drop 12)[3]? = some (ip.drop 12)[3] :=
        List.getElem?_eq_getElem (by omega)
      rw [AppendHostRecord, e]
      simp only [e3]
      rw [record_bytes_four _ _ _ _ _ _ hc ht hd]
      simp [hostRecordSpec, h4, hm, TypeA]
    · have e15 : ip[15]? = some ip[15] := List.getElem?_eq_getElem (by omega)
      rw [AppendHostRecord, To4_of_other ip h16 hm]
      simp only [e15]
      rw [record_bytes_sixteen _ _ _ _ _ _ hc ht h16]
      simp [hostRecordSpec, h4, hm, TypeAAAA]

/-- C7: for every list of addresses each of length 4 or 16, `AppendHostRecord` succeeds
and appends one record per address in input order: 16 bytes `C0 0C 00 01`, class, TTL
(4 big-endian bytes), `00 04` and the 4 address bytes for an IPv4 address (4 bytes, or
16 bytes IPv4-mapped), and 28 bytes `C0 0C 00 1C`, class, TTL, `00 10` and the 16 address
bytes for any other 16-byte address. -/
theorem C7_host_records (dst : List Nat) (msg : Message) (ips : List (List Nat)) (ttl : Nat)
    (hc : msg.Question.Class < 65536) (ht : ttl < 4294967296)
    (hlen : ∀ ip ∈ ips, ip.length = 4 ∨ ip.length = 16) :
    AppendHostRecord dst msg ips ttl = some (dst ++ ips.flatMap (hostRecordSpec msg ttl))
    ∧ ∀ ip ∈ ips,
        (hostRecordSpec msg ttl ip).length
          = if ip.length = 4 ∨ isIPv4Mapped ip then 16 else 28 := by
  constructor
  · induction ips generalizing dst with
    | nil => simp [AppendHostRecord]
    | cons ip ips ih =>
      rw [AppendHostRecord_cons dst msg ip ips ttl hc ht (hlen ip (List.mem_cons_self _ _)),
        ih _ (fun x hx => hlen x (List.mem_cons_of_mem _ hx))]
      simp
  · intro ip hip
    by_cases h4 : ip.length = 4
    · simp [hostRecordSpec, h4, be16, be32]
    · have h16 : ip.length = 16 := by
        have := hlen ip hip
        omega
      by_cases hm : isIPv4Mapped ip
      · simp [hostRecordSpec, h4, hm, be16, be32, h16]
      · simp [hostRecordSpec, h4, hm, be16, be32, h16]

/-- C7, at the address of the handler tests (1.2.4.8, TTL 300, class IN), followed by an
IPv4-mapped address and an IPv6 address. -/
theorem C7_host_records_witness :
    AppendHostRecord [] mockHandlerMessage [[1, 2, 4, 8]] 300
      = some [0xc0, 0x0c, 0x00, 0x01, 0x00, 0x01, 0x00, 0x00, 0x01, 0x2c, 0x00, 0x04,
              0x01, 0x02, 0x04, 0x08]
    ∧ (HOST memWriter ⟨[], none, none⟩ mockHandlerMessage 300 [[1, 2, 4, 8]]).map
          (fun r => r.1.data)
        = some
          [0x00, 0x02, 0x81, 0x00, 0x00, 0x01, 0x00, 0x01, 0x00, 0x00, 0x00, 0x00,
           0x02, 0x68, 0x6b, 0x04, 0x70, 0x68, 0x75, 0x73, 0x02, 0x6c, 0x75, 0x00,
           0x00, 0x01, 0x00, 0x01,
           0xc0, 0x0c, 0x00, 0x01, 0x00, 0x01, 0x00, 0x00, 0x01, 0x2c, 0x00, 0x04,
           0x01, 0x02, 0x04, 0x08]
    ∧ AppendHostRecord [] mockHandlerMessage
        [[1, 2, 4, 8],
         [0, 0, 0, 0, 0, 0, 0, 0, 0, 0, 0xff, 0xff, 9, 9, 9, 9],
         [0x20, 0x01, 0x0d, 0xb8, 0, 0, 0, 0, 0, 0, 0, 0, 0, 0, 0, 1]] 300
      = some ([] ++
          [[1, 2, 4, 8],
           [0, 0, 0, 0, 0, 0, 0, 0, 0, 0, 0xff, 0xff, 9, 9, 9, 9],
           [0x20, 0x01, 0x0d, 0xb8, 0, 0, 0, 0, 0, 0, 0, 0, 0, 0, 0, 1]].flatMap
            (hostRecordSpec mockHandlerMessage 300))
    ∧ hostRecordSpec mockHandlerMessage 300
          [0, 0, 0, 0, 0, 0, 0, 0, 0, 0, 0xff, 0xff, 9, 9, 9, 9]
        = [0xc0, 0x0c, 0x00, 0x01, 0x00, 0x01, 0x00, 0x00, 0x01, 0x2c, 0x00, 0x04, 9, 9, 9, 9]
    ∧ hostRecordSpec mockHandlerMessage 300
          [0x20, 0x01, 0x0d, 0xb8, 0, 0, 0, 0, 0, 0, 0, 0, 0, 0, 0, 1]
        = [0xc0, 0x0c, 0x00, 0x1c, 0x00, 0x01, 0x00, 0x00, 0x01, 0x2c, 0x00, 0x10,
           0x20, 0x01, 0x0d, 0xb8, 0, 0, 0, 0, 0, 0, 0, 0, 0, 0, 0, 1] :=
  ⟨by decide, by decide,
   (C7_host_records [] mockHandlerMessage
      [[1, 2, 4, 8],
       [0, 0, 0, 0, 0, 0, 0, 0, 0, 0, 0xff, 0xff, 9, 9, 9, 9],
       [0x20, 0x01, 0x0d, 0xb8, 0, 0, 0, 0, 0, 0, 0, 0, 0, 0, 0, 1]] 300
      (by decide) (by decide) (by decide)).1,
   by decide, by decide⟩

/-! ## CNAME records -/

/-- C8 (the code departs from the claim): the response to the request of the handler
tests with CNAME targets `a`, `bb` and the address 1.2.3.4, built at offset 0.  The
target of the last CNAME record (`02 62 62 00`) begins at position 55 and the address
record begins at position 59, but the address record's pointer is `C0 38`, offset 56:
the loop advanced the offset by the length of the current target (`bb`) where the
record just passed held the previous one (`a`). -/
theorem C8_address_pointer_two_cnames :
    AppendCNameRecord (AppendHeaderQuestion [] mockHandlerMessage RcodeSuccess 1 3 0 0)
        mockHandlerMessage [bytesOf "a", bytesOf "bb"] [[1, 2, 3, 4]] 300
      = some
        [0, 2, 129, 0, 0, 1, 0, 3, 0, 0, 0, 0,
         2, 104, 107, 4, 112, 104, 117, 115, 2, 108, 117, 0, 0, 1, 0, 1,
         192, 12, 0, 5, 0, 1, 0, 0, 1, 44, 0, 3, 1, 97, 0,
         192, 40, 0, 5, 0, 1, 0, 0, 1, 44, 0, 4, 2, 98, 98, 0,
         192, 56, 0, 1, 0, 1, 0, 0, 1, 44, 0, 4, 1, 2, 3, 4]
    ∧ (((AppendCNameRecord (AppendHeaderQuestion [] mockHandlerMessage RcodeSuccess 1 3 0 0)
          mockHandlerMessage [bytesOf "a", bytesOf "bb"] [[1, 2, 3, 4]] 300).getD []).drop 55).take 4
        = EncodeDomain [] (bytesOf "bb")
    ∧ (((AppendCNameRecord (AppendHeaderQuestion [] mockHandlerMessage RcodeSuccess 1 3 0 0)
          mockHandlerMessage [bytesOf "a", bytesOf "bb"] [[1, 2, 3, 4]] 300).getD []).drop 59).take 2
        = [0xC0 + 56 / 256, 56 % 256]
    ∧ (56 : Nat) ≠ 55 := by
  decide

/-- C9 (the code departs from the claim): the response to the request of the handler
tests with CNAME targets `a`, `bb`, `c`, built at offset 0.  The target of the second
CNAME record (`02 62 62 00`) begins at position 55 and the third record begins at
position 59, but the third record's owner name is `C0 38`, offset 56. -/
theorem C9_owner_pointer_three_cnames :
    AppendCNameRecord (AppendHeaderQuestion [] mockHandlerMessage RcodeSuccess 1 3 0 0)
        mockHandlerMessage [bytesOf "a", bytesOf "bb", bytesOf "c"] [] 300
      = some
        [0, 2, 129, 0, 0, 1, 0, 3, 0, 0, 0, 0,
         2, 104, 107, 4, 112, 104, 117, 115, 2, 108, 117, 0, 0, 1, 0, 1,
         192, 12, 0, 5, 0, 1, 0, 0, 1, 44, 0, 3, 1, 97, 0,
         192, 40, 0, 5, 0, 1, 0, 0, 1, 44, 0, 4, 2, 98, 98, 0,
         192, 56, 0, 5, 0, 1, 0, 0, 1, 44, 0, 3, 1, 99, 0]
    ∧ (((AppendCNameRecord (AppendHeaderQuestion [] mockHandlerMessage RcodeSuccess 1 3 0 0)
          mockHandlerMessage [bytesOf "a", bytesOf "bb", bytesOf "c"] [] 300).getD []).drop 55).take 4
        = EncodeDomain [] (bytesOf "bb")
    ∧ (((AppendCNameRecord (AppendHeaderQuestion [] mockHandlerMessage RcodeSuccess 1 3 0 0)
          mockHandlerMessage [bytesOf "a", bytesOf "bb", bytesOf "c"] [] 300).getD []).drop 59).take 2
        = [0xC0 + 56 / 256, 56 % 256]
    ∧ (56 : Nat) ≠ 55 := by
  decide

theorem splitLabels_encoded_length (d : List Nat) :
    ((splitLabels d).flatMap (fun l => (l.length % 256) :: l)).length = d.length + 1 := by
  induction d with
  | nil => simp [splitLabels]
  | cons c cs ih =>
    by_cases hc : c = 46
    · simp [splitLabels, hc, ih]
    · cases hs : splitLabels cs with
      | nil => simp [hs] at ih
      | cons l ls =>
        rw [hs] at ih
        simp only [splitLabels, hc, if_false, hs]
        simp only [List.flatMap_cons, List.length_append, List.length_cons] at ih ⊢
        omega

/-- The encoding of a name of `n` bytes has `n + 2` bytes, and `EncodeDomain` appends it. -/
theorem EncodeDomain_append (dst d : List Nat) :
    EncodeDomain dst d = dst ++ EncodeDomain [] d
    ∧ (EncodeDomain [] d).length = d.length + 2 := by
  constructor
  · simp [EncodeDomain]
  · simp only [EncodeDomain, List.nil_append, List.length_append, List.length_singleton,
      splitLabels_encoded_length]

/-- C10: for every request, TTL and single CNAME target of at most 253 bytes, the CNAME
reply with that one target and no addresses is written in one `Write` and consists of
the header (the request's ID, QR = 1, rcode 0, counts 1, 1, 0, 0), the question, and
one record `C0 0C 00 05`, the question's class, the TTL in 4 big-endian bytes,
RDLENGTH = length of the target + 2 = length of the encoded target, and the encoded
target. -/
theorem C10_cname_reply {W : Type} (I : ResponseWriter W) (rw : W) (req : Message)
    (ttl : Nat) (target : List Nat)
    (hid : req.Header.ID < 65536) (hty : req.Question.Type_ < 65536)
    (hc : req.Question.Class < 65536) (ht : ttl < 4294967296)
    (hlen : target.length ≤ 253) :
    ∃ b2 b3,
      decodeQR b2 = 1 ∧ decodeRCODE b3 = 0
      ∧ (EncodeDomain [] target).length = target.length + 2
      ∧ CNAME I rw req ttl [target] []
          = some
            ((I.Write rw
                ([req.Header.ID / 256, req.Header.ID % 256, b2, b3, 0, 1, 0, 1, 0, 0, 0, 0]
                  ++ (req.Question.Name ++ be16 req.Question.Type_ ++ be16 req.Question.Class)
                  ++ ([0xC0, 0x0C, 0x00, 0x05] ++ be16 req.Question.Class ++ be32 ttl
                        ++ [0x00, target.length + 2] ++ EncodeDomain [] target))).1,
             { req with Raw :=
                [req.Header.ID / 256, req.Header.ID % 256, b2, b3, 0, 1, 0, 1, 0, 0, 0, 0]
                  ++ (req.Question.Name ++ be16 req.Question.Type_ ++ be16 req.Question.Class)
                  ++ ([0xC0, 0x0C, 0x00, 0x05] ++ be16 req.Question.Class ++ be32 ttl
                        ++ [0x00, target.length + 2] ++ EncodeDomain [] target) }) := by
  refine ⟨(1 <<< (7 - 0)) % 256 ||| ((req.Header.Opcode % 256) <<< (7 - (1 + 3))) % 256
            ||| (req.Header.AA <<< (7 - 5)) % 256 ||| (req.Header.TC <<< (7 - 6)) % 256
            ||| req.Header.RD,
         (req.Header.RA <<< (7 - 0)) % 256 ||| (req.Header.Z <<< (7 - 1)) % 256
            ||| ((RcodeSuccess % 256) <<< (7 - (4 + 3))) % 256, ?_, ?_, ?_, ?_⟩
  · unfold decodeQR
    have e : (1 <<< (7 - 0)) % 256 = 128 := by decide
    rw [e, Nat.lor_assoc, Nat.lor_assoc, Nat.lor_assoc]
    exact lor_bit7 _
  · unfold decodeRCODE
    exact flags3_low _ _ _ (by decide)
  · exact (EncodeDomain_append [] target).2
  · have hcb := class_bytes _ hc
    have htb := ttl_bytes _ ht
    have hl : (target.length + 2) % 256 = target.length + 2 := by omega
    simp only [be16, be32] at hcb htb ⊢
    simp only [List.cons.injEq, and_true] at hcb htb
    obtain ⟨enc, hE⟩ : ∃ enc, enc = EncodeDomain [] target := ⟨_, rfl⟩
    have he : ∀ dst, EncodeDomain dst target = dst ++ enc := fun dst => by
      rw [hE]
      exact (EncodeDomain_append dst target).1
    rw [← hE]
    unfold CNAME AppendCNameRecord
    simp only [AppendCNameRecord.cnames, AppendCNameRecord.hosts, List.take_zero,
      AppendHeaderQuestion_eq, he]
    simp [shr8_byte _ hid, shr8_byte _ hty, shr8_byte _ hc, and_ff_byte, hcb, htb, hl,
      TypeCNAME]

/-- C10, at the request of the handler tests with target `cname.example.com` and TTL
300: the in-memory writer holds the hex of `TestHandlerCNAME`. -/
theorem C10_cname_reply_witness :
    (CNAME memWriter ⟨[], none, none⟩ mockHandlerMessage 300
        [bytesOf "cname.example.com"] []).map (fun r => r.1.data)
      = some
        [0x00, 0x02, 0x81, 0x00, 0x00, 0x01, 0x00, 0x01, 0x00, 0x00, 0x00, 0x00,
         0x02, 0x68, 0x6b, 0x04, 0x70, 0x68, 0x75, 0x73, 0x02, 0x6c, 0x75, 0x00,
         0x00, 0x01, 0x00, 0x01,
         0xc0, 0x0c, 0x00, 0x05, 0x00, 0x01, 0x00, 0x00, 0x01, 0x2c, 0x00, 0x13,
         0x05, 0x63, 0x6e, 0x61, 0x6d, 0x65, 0x07, 0x65, 0x78, 0x61, 0x6d, 0x70, 0x6c, 0x65,
         0x03, 0x63, 0x6f, 0x6d, 0x00]
    ∧ ∃ b2 b3,
      decodeQR b2 = 1 ∧ decodeRCODE b3 = 0
      ∧ (EncodeDomain [] (bytesOf "cname.example.com")).length
          = (bytesOf "cname.example.com").length + 2
      ∧ CNAME memWriter ⟨[], none, none⟩ mockHandlerMessage 300
            [bytesOf "cname.example.com"] []
          = some
            ((memWriter.Write ⟨[], none, none⟩
                ([mockHandlerMessage.Header.ID / 256, mockHandlerMessage.Header.ID % 256,
                    b2, b3, 0, 1, 0, 1, 0, 0, 0, 0]
                  ++ (mockHandlerMessage.Question.Name
                        ++ be16 mockHandlerMessage.Question.Type_
                        ++ be16 mockHandlerMessage.Question.Class)
                  ++ ([0xC0, 0x0C, 0x00, 0x05] ++ be16 mockHandlerMessage.Question.Class
                        ++ be32 300
                        ++ [0x00, (bytesOf "cname.example.com").length + 2]
                        ++ EncodeDomain [] (bytesOf "cname.example.com")))).1,
             { mockHandlerMessage with Raw :=
                [mockHandlerMessage.Header.ID / 256, mockHandlerMessage.Header.ID % 256,
                    b2, b3, 0, 1, 0, 1, 0, 0, 0, 0]
                  ++ (mockHandlerMessage.Question.Name
                        ++ be16 mockHandlerMessage.Question.Type_
                        ++ be16 mockHandlerMessage.Question.Class)
                  ++ ([0xC0, 0x0C, 0x00, 0x05] ++ be16 mockHandlerMessage.Question.Class
                        ++ be32 300
                        ++ [0x00, (bytesOf "cname.example.com").length + 2]
                        ++ EncodeDomain [] (bytesOf "cname.example.com")) }) :=
  ⟨by decide,
   C10_cname_reply memWriter ⟨[], none, none⟩ mockHandlerMessage 300
     (bytesOf "cname.example.com") (by decide) (by decide) (by decide) (by decide)
     (by decide)⟩

/-! ## Shared lemmas on replies and single records -/

theorem flags2_qr (op aa tc rd : Nat) :
    decodeQR ((1 <<< (7 - 0)) % 256 ||| ((op % 256) <<< (7 - (1 + 3))) % 256
      ||| (aa <<< (7 - 5)) % 256 ||| (tc <<< (7 - 6)) % 256 ||| rd) = 1 := by
  unfold decodeQR
  have e : (1 <<< (7 - 0)) % 256 = 128 := by decide
  rw [e, Nat.lor_assoc, Nat.lor_assoc, Nat.lor_assoc]
  exact lor_bit7 _

/-- The header and question that every record handler writes first: the request's ID,
QR = 1, rcode 0, counts 1, `an`, 0, 0, then the question. -/
theorem reply_header (req : Message) (an : Nat)
    (hid : req.Header.ID < 65536) (hty : req.Question.Type_ < 65536)
    (hc : req.Question.Class < 65536) (han : an < 65536) :
    ∃ b2 b3, decodeQR b2 = 1 ∧ decodeRCODE b3 = 0
      ∧ AppendHeaderQuestion [] req RcodeSuccess 1 an 0 0
          = [req.Header.ID / 256, req.Header.ID % 256, b2, b3,
             0, 1, an / 256, an % 256, 0, 0, 0, 0]
            ++ (req.Question.Name ++ be16 req.Question.Type_ ++ be16 req.Question.Class) := by
  refine ⟨_, _, flags2_qr req.Header.Opcode req.Header.AA req.Header.TC req.Header.RD,
    flags3_low req.Header.RA req.Header.Z RcodeSuccess (by decide), ?_⟩
  rw [AppendHeaderQuestion_eq]
  simp [shr8_byte _ hid, shr8_byte _ hty, shr8_byte _ hc, shr8_byte _ han, and_ff_byte, be16]

theorem EncodeDomain_eq (dst d : List Nat) : EncodeDomain dst d = dst ++ EncodeDomain [] d :=
  (EncodeDomain_append dst d).1

theorem EncodeDomain_length (d : List Nat) : (EncodeDomain [] d).length = d.length + 2 :=
  (EncodeDomain_append [] d).2

theorem be16_shift (x : Nat) (h : x < 65536) : [(x >>> 8) % 256, x % 256] = be16 x :=
  class_bytes x h

/-- The bytes appended by `AppendSRVRecord`. -/
theorem AppendSRVRecord_eq (dst : List Nat) (msg : Message) (srv : List Nat)
    (p w q ttl : Nat) (hc : msg.Question.Class < 65536) (ht : ttl < 4294967296)
    (hp : p < 65536) (hw : w < 65536) (hq : q < 65536) (hlen : srv.length < 65528) :
    AppendSRVRecord dst msg srv p w q ttl
      = dst ++ ([0xC0, 0x0C, 0x00, 0x21] ++ be16 msg.Question.Class ++ be32 ttl
          ++ be16 (8 + srv.length) ++ (be16 p ++ be16 w ++ be16 q ++ EncodeDomain [] srv)) := by
  unfold AppendSRVRecord
  simp only []
  rw [EncodeDomain_eq, ← class_bytes _ hc, ← ttl_bytes _ ht, ← be16_shift _ hp,
    ← be16_shift _ hw, ← be16_shift _ hq, ← be16_shift (8 + srv.length) (by omega)]
  simp [TypeSRV]

/-- One iteration of the loop of `AppendMXRecord`. -/
theorem AppendMXRecord_cons (dst : List Nat) (msg : Message) (rr : MXRecord)
    (mx : List MXRecord) (ttl : Nat) (hc : msg.Question.Class < 65536)
    (ht : ttl < 4294967296) (hp : rr.Priority < 65536) (hlen : rr.Host.length < 65532) :
    AppendMXRecord dst msg (rr :: mx) ttl
      = AppendMXRecord
          (dst ++ ([0xC0, 0x0C, 0x00, 0x0F] ++ be16 msg.Question.Class ++ be32 ttl
            ++ be16 (4 + rr.Host.length) ++ (be16 rr.Priority ++ EncodeDomain [] rr.Host)))
          msg mx ttl := by
  rw [AppendMXRecord]
  rw [EncodeDomain_eq, ← class_bytes _ hc, ← ttl_bytes _ ht, ← be16_shift _ hp,
    ← be16_shift (4 + rr.Host.length) (by omega)]
  simp [TypeMX]

/-- The bytes appended by `AppendPTRRecord`. -/
theorem AppendPTRRecord_eq (dst : List Nat) (msg : Message) (ptr : List Nat) (ttl : Nat)
    (hc : msg.Question.Class < 65536) (ht : ttl < 4294967296) :
    AppendPTRRecord dst msg ptr ttl
      = dst ++ ([0xC0, 0x0C, 0x00, 0x0C] ++ be16 msg.Question.Class ++ be32 ttl
          ++ [0x00, (2 + ptr.length) % 256] ++ EncodeDomain [] ptr) := by
  unfold AppendPTRRecord
  simp only []
  rw [EncodeDomain_eq, ← class_bytes _ hc, ← ttl_bytes _ ht]
  simp [TypePTR]

/-! ## SRV, MX and PTR records -/

/-- C11: for every target name of fewer than 65528 bytes, `AppendSRVRecord` appends
`C0 0C`, type `00 21`, the question's class, the TTL in 4 big-endian bytes, a 2-byte
big-endian RDLENGTH equal to 6 plus the encoded target length, then priority, weight and
port in that order as 2-byte big-endian values, then the encoded target (of
`len + 2` bytes). -/
theorem C11_srv_record (dst : List Nat) (msg : Message) (srv : List Nat)
    (priovrity weight port ttl : Nat)
    (hc : msg.Question.Class < 65536) (ht : ttl < 4294967296)
    (hp : priovrity < 65536) (hw : weight < 65536) (hq : port < 65536)
    (hlen : srv.length < 65528) :
    AppendSRVRecord dst msg srv priovrity weight port ttl
      = dst ++ ([0xC0, 0x0C, 0x00, 0x21] ++ be16 msg.Question.Class ++ be32 ttl
          ++ be16 (6 + (EncodeDomain [] srv).length)
          ++ be16 priovrity ++ be16 weight ++ be16 port ++ EncodeDomain [] srv)
    ∧ (EncodeDomain [] srv).length = srv.length + 2
    ∧ 6 + (EncodeDomain [] srv).length < 65536 := by
  have hE := EncodeDomain_length srv
  refine ⟨?_, hE, by omega⟩
  have e : 6 + (EncodeDomain [] srv).length = 8 + srv.length := by omega
  rw [AppendSRVRecord_eq dst msg srv priovrity weight port ttl hc ht hp hw hq hlen, e]
  simp

/-- C11, at the data of `TestHandlerSRV` (service1.example.com, 1000, 1000, 8001, TTL
300): RDLENGTH is `00 1c`. -/
theorem C11_srv_record_witness :
    AppendSRVRecord [] mockHandlerMessage (bytesOf "service1.example.com") 1000 1000 8001 300
      = [0xc0, 0x0c, 0x00, 0x21, 0x00, 0x01, 0x00, 0x00, 0x01, 0x2c, 0x00, 0x1c,
         0x03, 0xe8, 0x03, 0xe8, 0x1f, 0x41,
         0x08, 0x73, 0x65, 0x72, 0x76, 0x69, 0x63, 0x65, 0x31,
         0x07, 0x65, 0x78, 0x61, 0x6d, 0x70, 0x6c, 0x65, 0x03, 0x63, 0x6f, 0x6d, 0x00]
    ∧ AppendSRVRecord [] mockHandlerMessage (bytesOf "service1.example.com") 1000 1000 8001 300
      = [] ++ ([0xC0, 0x0C, 0x00, 0x21] ++ be16 mockHandlerMessage.Question.Class ++ be32 300
          ++ be16 (6 + (EncodeDomain [] (bytesOf "service1.example.com")).length)
          ++ be16 1000 ++ be16 1000 ++ be16 8001
          ++ EncodeDomain [] (bytesOf "service1.example.com"))
    ∧ be16 (6 + (EncodeDomain [] (bytesOf "service1.example.com")).length) = [0x00, 0x1c] :=
  ⟨by decide,
   (C11_srv_record [] mockHandlerMessage (bytesOf "service1.example.com") 1000 1000 8001 300
      (by decide) (by decide) (by decide) (by decide) (by decide) (by decide)).1,
   by decide⟩

/-- The bytes appended by `AppendMXRecord`, one record per entry. -/
theorem AppendMXRecord_eq (dst : List Nat) (msg : Message) (mx : List MXRecord) (ttl : Nat)
    (hc : msg.Question.Class < 65536) (ht : ttl < 4294967296)
    (hmx : ∀ rr ∈ mx, rr.Priority < 65536 ∧ rr.Host.length < 65532) :
    AppendMXRecord dst msg mx ttl
      = dst ++ mx.flatMap (fun rr =>
          [0xC0, 0x0C, 0x00, 0x0F] ++ be16 msg.Question.Class ++ be32 ttl
            ++ be16 (4 + rr.Host.length) ++ (be16 rr.Priority ++ EncodeDomain [] rr.Host)) := by
  induction mx generalizing dst with
  | nil => simp [AppendMXRecord]
  | cons rr mx ih =>
    have h := hmx rr (List.mem_cons_self _ _)
    rw [AppendMXRecord_cons dst msg rr mx ttl hc ht h.1 h.2,
      ih _ (fun x hx => hmx x (List.mem_cons_of_mem _ hx))]
    simp

/-- C12: for every list of MX entries with hosts of fewer than 65532 bytes,
`AppendMXRecord` appends exactly one record per entry, in input order, each being
`C0 0C`, type `00 0F`, the question's class, the TTL, a 2-byte big-endian RDLENGTH equal
to 2 plus the encoded host length, the entry's priority as 2 big-endian bytes, then the
encoded host (of `len + 2` bytes); an empty list appends nothing. -/
theorem C12_mx_records (dst : List Nat) (msg : Message) (mx : List MXRecord) (ttl : Nat)
    (hc : msg.Question.Class < 65536) (ht : ttl < 4294967296)
    (hmx : ∀ rr ∈ mx, rr.Priority < 65536 ∧ rr.Host.length < 65532) :
    AppendMXRecord dst msg mx ttl
      = dst ++ mx.flatMap (fun rr =>
          [0xC0, 0x0C, 0x00, 0x0F] ++ be16 msg.Question.Class ++ be32 ttl
            ++ be16 (2 + (EncodeDomain [] rr.Host).length)
            ++ be16 rr.Priority ++ EncodeDomain [] rr.Host)
    ∧ (∀ rr ∈ mx, (EncodeDomain [] rr.Host).length = rr.Host.length + 2
        ∧ 2 + (EncodeDomain [] rr.Host).length < 65536)
    ∧ AppendMXRecord dst msg [] ttl = dst := by
  refine ⟨?_, ?_, by simp [AppendMXRecord]⟩
  · rw [AppendMXRecord_eq dst msg mx ttl hc ht hmx]
    congr 1
    apply List.flatMap_congr
    intro rr _
    have e : 2 + (EncodeDomain [] rr.Host).length = 4 + rr.Host.length := by
      rw [EncodeDomain_length]; omega
    rw [e]
    simp
  · intro rr hrr
    have := (hmx rr hrr).2
    rw [EncodeDomain_length]
    omega

/-- C12, at the data of `TestHandlerMX` (priority 10, ptr.example.org, TTL 300):
RDLENGTH is `00 13`. -/
theorem C12_mx_records_witness :
    AppendMXRecord [] mockHandlerMessage [⟨10, bytesOf "ptr.example.org"⟩] 300
      = [0xc0, 0x0c, 0x00, 0x0f, 0x00, 0x01, 0x00, 0x00, 0x01, 0x2c, 0x00, 0x13, 0x00, 0x0a,
         0x03, 0x70, 0x74, 0x72, 0x07, 0x65, 0x78, 0x61, 0x6d, 0x70, 0x6c, 0x65,
         0x03, 0x6f, 0x72, 0x67, 0x00]
    ∧ AppendMXRecord [] mockHandlerMessage
        [⟨10, bytesOf "ptr.example.org"⟩, ⟨20, bytesOf "b.example.org"⟩] 300
      = [] ++ [(⟨10, bytesOf "ptr.example.org"⟩ : MXRecord),
               ⟨20, bytesOf "b.example.org"⟩].flatMap (fun rr =>
          [0xC0, 0x0C, 0x00, 0x0F] ++ be16 mockHandlerMessage.Question.Class ++ be32 300
            ++ be16 (2 + (EncodeDomain [] rr.Host).length)
            ++ be16 rr.Priority ++ EncodeDomain [] rr.Host) :=
  ⟨by decide,
   (C12_mx_records [] mockHandlerMessage
      [⟨10, bytesOf "ptr.example.org"⟩, ⟨20, bytesOf "b.example.org"⟩] 300
      (by decide) (by decide) (by decide)).1⟩

/-- C13 (the claim fails): for the target `ptr.example.org` (15 bytes) the RDLENGTH
field written by `AppendPTRRecord` is `00 11` = 17, and the encoded name that follows it
has 17 bytes; RDLENGTH is not 2 plus the length of the encoded name. -/
theorem C13_ptr_rdlength_counterexample :
    (bytesOf "ptr.example.org").length ≤ 251
    ∧ ((AppendPTRRecord [] mockHandlerMessage (bytesOf "ptr.example.org") 300).drop 10).take 2
        = [0, 17]
    ∧ (AppendPTRRecord [] mockHandlerMessage (bytesOf "ptr.example.org") 300).drop 12
        = EncodeDomain [] (bytesOf "ptr.example.org")
    ∧ (EncodeDomain [] (bytesOf "ptr.example.org")).length = 17
    ∧ ¬ (0 * 256 + 17 = 2 + (EncodeDomain [] (bytesOf "ptr.example.org")).length) := by
  decide

/-- C13 (amended): for every PTR target name of at most 253 bytes, the record written by
`AppendPTRRecord` is 10 bytes (name pointer, type, class, TTL), then the RDLENGTH field,
then the encoded name, and the RDLENGTH field is the 2-byte big-endian length of the
encoded name that follows it, which is 2 plus the length of the target name. -/
theorem C13_ptr_rdlength_amended (dst : List Nat) (msg : Message) (ptr : List Nat)
    (ttl : Nat) (hlen : ptr.length ≤ 253) :
    ∃ pre : List Nat, pre.length = 10
      ∧ AppendPTRRecord dst msg ptr ttl
          = dst ++ pre ++ be16 (EncodeDomain [] ptr).length ++ EncodeDomain [] ptr
      ∧ (EncodeDomain [] ptr).length = 2 + ptr.length
      ∧ (EncodeDomain [] ptr).length < 256 := by
  have hE := EncodeDomain_length ptr
  refine ⟨[0xc0, 0x0c, 0x00, TypePTR % 256,
     (msg.Question.Class >>> 8) % 256, msg.Question.Class % 256,
     (ttl >>> 24) % 256, (ttl >>> 16) % 256, (ttl >>> 8) % 256, ttl % 256], rfl, ?_,
     by omega, by omega⟩
  have e1 : (2 + ptr.length) % 256 = ptr.length + 2 := by omega
  have e2 : (ptr.length + 2) / 256 = 0 := by omega
  have e3 : (ptr.length + 2) % 256 = ptr.length + 2 := by omega
  unfold AppendPTRRecord
  simp only []
  rw [EncodeDomain_eq, hE, e1]
  simp [be16, e2, e3]

/-- C13 (amended), at the target `ptr.example.org`. -/
theorem C13_ptr_rdlength_amended_witness :
    be16 (EncodeDomain [] (bytesOf "ptr.example.org")).length = [0x00, 0x11]
    ∧ ∃ pre : List Nat, pre.length = 10
      ∧ AppendPTRRecord [] mockHandlerMessage (bytesOf "ptr.example.org") 300
          = [] ++ pre ++ be16 (EncodeDomain [] (bytesOf "ptr.example.org")).length
              ++ EncodeDomain [] (bytesOf "ptr.example.org")
      ∧ (EncodeDomain [] (bytesOf "ptr.example.org")).length
          = 2 + (bytesOf "ptr.example.org").length
      ∧ (EncodeDomain [] (bytesOf "ptr.example.org")).length < 256 :=
  ⟨by decide,
   C13_ptr_rdlength_amended [] mockHandlerMessage (bytesOf "ptr.example.org") 300
     (by decide)⟩

/-- C14: for every request, TTL and PTR target name of at most 253 bytes, the PTR reply is
written in one `Write` and consists of the header (the request's ID, QR = 1, rcode 0,
counts 1, 1, 0, 0), the question, and one record `C0 0C 00 0C`, the question's class,
the TTL in 4 big-endian bytes, RDLENGTH equal to the number of RDATA bytes that follow,
then the encoded target. -/
theorem C14_ptr_reply {W : Type} (I : ResponseWriter W) (rw : W) (req : Message)
    (ttl : Nat) (ptr : List Nat)
    (hid : req.Header.ID < 65536) (hty : req.Question.Type_ < 65536)
    (hc : req.Question.Class < 65536) (ht : ttl < 4294967296)
    (hlen : ptr.length ≤ 253) :
    ∃ b2 b3,
      decodeQR b2 = 1 ∧ decodeRCODE b3 = 0
      ∧ (EncodeDomain [] ptr).length < 65536
      ∧ PTR I rw req ttl ptr
          = ((I.Write rw
                ([req.Header.ID / 256, req.Header.ID % 256, b2, b3, 0, 1, 0, 1, 0, 0, 0, 0]
                  ++ (req.Question.Name ++ be16 req.Question.Type_ ++ be16 req.Question.Class)
                  ++ ([0xC0, 0x0C, 0x00, 0x0C] ++ be16 req.Question.Class ++ be32 ttl
                        ++ be16 (EncodeDomain [] ptr).length ++ EncodeDomain [] ptr))).1,
             { req with Raw :=
                [req.Header.ID / 256, req.Header.ID % 256, b2, b3, 0, 1, 0, 1, 0, 0, 0, 0]
                  ++ (req.Question.Name ++ be16 req.Question.Type_ ++ be16 req.Question.Class)
                  ++ ([0xC0, 0x0C, 0x00, 0x0C] ++ be16 req.Question.Class ++ be32 ttl
                        ++ be16 (EncodeDomain [] ptr).length ++ EncodeDomain [] ptr) }) := by
  obtain ⟨b2, b3, hq, hr, hH⟩ := reply_header req 1 hid hty hc (by decide)
  have hE := EncodeDomain_length ptr
  refine ⟨b2, b3, hq, hr, by omega, ?_⟩
  have e1 : (2 + ptr.length) % 256 = ptr.length + 2 := by omega
  have e2 : (ptr.length + 2) / 256 = 0 := by omega
  have e3 : (ptr.length + 2) % 256 = ptr.length + 2 := by omega
  have hb : be16 (EncodeDomain [] ptr).length = [0x00, (2 + ptr.length) % 256] := by
    rw [hE, e1]
    simp [be16, e2, e3]
  have hP := fun dst raw => AppendPTRRecord_eq dst { req with Raw := raw } ptr ttl hc ht
  unfold PTR
  simp only [List.take_zero]
  rw [hH, hP, hb]

/-- C14, at the data of `TestHandlerPTR` (question hk.phus.lu, type A, class IN, ID 2,
RD = 1, TTL 300, target ptr.example.org): the in-memory writer holds the hex of the
test. -/
theorem C14_ptr_reply_witness :
    (PTR memWriter ⟨[], none, none⟩ mockHandlerMessage 300 (bytesOf "ptr.example.org")).1.data
      = [0x00, 0x02, 0x81, 0x00, 0x00, 0x01, 0x00, 0x01, 0x00, 0x00, 0x00, 0x00,
         0x02, 0x68, 0x6b, 0x04, 0x70, 0x68, 0x75, 0x73, 0x02, 0x6c, 0x75, 0x00,
         0x00, 0x01, 0x00, 0x01,
         0xc0, 0x0c, 0x00, 0x0c, 0x00, 0x01, 0x00, 0x00, 0x01, 0x2c, 0x00, 0x11,
         0x03, 0x70, 0x74, 0x72, 0x07, 0x65, 0x78, 0x61, 0x6d, 0x70, 0x6c, 0x65,
         0x03, 0x6f, 0x72, 0x67, 0x00]
    ∧ ∃ b2 b3,
      decodeQR b2 = 1 ∧ decodeRCODE b3 = 0
      ∧ (EncodeDomain [] (bytesOf "ptr.example.org")).length < 65536
      ∧ PTR memWriter ⟨[], none, none⟩ mockHandlerMessage 300 (bytesOf "ptr.example.org")
          = ((memWriter.Write ⟨[], none, none⟩
                ([mockHandlerMessage.Header.ID / 256, mockHandlerMessage.Header.ID % 256,
                    b2, b3, 0, 1, 0, 1, 0, 0, 0, 0]
                  ++ (mockHandlerMessage.Question.Name
                        ++ be16 mockHandlerMessage.Question.Type_
                        ++ be16 mockHandlerMessage.Question.Class)
                  ++ ([0xC0, 0x0C, 0x00, 0x0C] ++ be16 mockHandlerMessage.Question.Class
                        ++ be32 300
                        ++ be16 (EncodeDomain [] (bytesOf "ptr.example.org")).length
                        ++ EncodeDomain [] (bytesOf "ptr.example.org")))).1,
             { mockHandlerMessage with Raw :=
                [mockHandlerMessage.Header.ID / 256, mockHandlerMessage.Header.ID % 256,
                    b2, b3, 0, 1, 0, 1, 0, 0, 0, 0]
                  ++ (mockHandlerMessage.Question.Name
                        ++ be16 mockHandlerMessage.Question.Type_
                        ++ be16 mockHandlerMessage.Question.Class)
                  ++ ([0xC0, 0x0C, 0x00, 0x0C] ++ be16 mockHandlerMessage.Question.Class
                        ++ be32 300
                        ++ be16 (EncodeDomain [] (bytesOf "ptr.example.org")).length
                        ++ EncodeDomain [] (bytesOf "ptr.example.org")) }) :=
  ⟨by decide,
   C14_ptr_reply memWriter ⟨[], none, none⟩ mockHandlerMessage 300
     (bytesOf "ptr.example.org") (by decide) (by decide) (by decide) (by decide)
     (by decide)⟩

/-! ## TXT records -/

theorem loop_step (dst txt : List Nat) (h : 255 < txt.length) :
    AppendTXTRecord.loop dst txt
      = AppendTXTRecord.loop ((dst ++ [0xff]) ++ txt.take 0xff) (txt.drop 0xff) := by
  conv_lhs => rw [AppendTXTRecord.loop]
  rw [if_pos h]

theorem loop_done (dst txt : List Nat) (h : txt.length ≤ 255) :
    AppendTXTRecord.loop dst txt = (dst, txt) := by
  rw [AppendTXTRecord.loop, if_neg (by omega)]

/-- The loop only appends to the buffer. -/
theorem loop_append (n : Nat) : ∀ txt dst : List Nat, txt.length ≤ n →
    AppendTXTRecord.loop dst txt
      = (dst ++ (AppendTXTRecord.loop [] txt).1, (AppendTXTRecord.loop [] txt).2) := by
  induction n with
  | zero =>
    intro txt dst h
    rw [loop_done dst txt (by omega), loop_done [] txt (by omega)]
    simp
  | succ n ih =>
    intro txt dst h
    by_cases hl : 255 < txt.length
    · have hd : (txt.drop 0xff).length ≤ n := by
        simp only [List.length_drop]
        omega
      rw [loop_step dst txt hl, loop_step [] txt hl, ih _ _ hd, ih _ ([] ++ [0xff] ++ _) hd]
      simp
    · rw [loop_done dst txt (by omega), loop_done [] txt (by omega)]
      simp

/-- What the loop leaves: full chunks of 255 bytes in the buffer, and a rest of at most 255
bytes, which is not empty when the text has more than 255 bytes. -/
theorem loop_chunks (n : Nat) : ∀ txt : List Nat, txt.length ≤ n →
    ∃ full : List (List Nat),
      (∀ c ∈ full, c.length = 255)
      ∧ (AppendTXTRecord.loop [] txt).1 = full.flatMap (fun c => c.length :: c)
      ∧ full.flatten ++ (AppendTXTRecord.loop [] txt).2 = txt
      ∧ (AppendTXTRecord.loop [] txt).2.length ≤ 255
      ∧ (255 < txt.length → (AppendTXTRecord.loop [] txt).2 ≠ [])
      ∧ txt.length = 255 * full.length + (AppendTXTRecord.loop [] txt).2.length := by
  induction n with
  | zero =>
    intro txt h
    refine ⟨[], ?_⟩
    rw [loop_done [] txt (by omega)]
    simp
    omega
  | succ n ih =>
    intro txt h
    by_cases hl : 255 < txt.length
    · have hd : (txt.drop 0xff).length ≤ n := by
        simp only [List.length_drop]
        omega
      obtain ⟨full, h1, h2, h3, h4, h5, h6⟩ := ih (txt.drop 0xff) hd
      have ht : (txt.take 0xff).length = 255 := by
        simp only [List.length_take]
        omega
      refine ⟨txt.take 0xff :: full, ?_, ?_, ?_, ?_, ?_, ?_⟩
      · intro c hc
        rcases List.mem_cons.mp hc with rfl | hc
        · exact ht
        · exact h1 c hc
      · rw [loop_step [] txt hl, loop_append _ _ _ (le_refl _)]
        simp [h2, ht]
      · rw [loop_step [] txt hl, loop_append _ _ _ (le_refl _)]
        simp only [List.flatten_cons, List.append_assoc]
        rw [h3, List.take_append_drop]
      · rw [loop_step [] txt hl, loop_append _ _ _ (le_refl _)]
        exact h4
      · intro _
        rw [loop_step [] txt hl, loop_append _ _ _ (le_refl _)]
        simp only
        intro h0
        by_cases h7 : 255 < (txt.drop 0xff).length
        · exact h5 h7 h0
        · rw [loop_done [] (txt.drop 0xff) (by omega)] at h0
          have h8 := congrArg List.length h0
          simp only [List.length_drop, List.length_nil] at h8
          omega
      · rw [loop_step [] txt hl, loop_append _ _ _ (le_refl _)]
        simp only [List.length_cons, List.length_drop] at h6 ⊢
        omega
    · refine ⟨[], ?_⟩
      rw [loop_done [] txt (by omega)]
      simp
      omega

/-- The bytes appended by `AppendTXTRecord`: the 12-byte record prefix, what the loop wrote,
the length byte of the rest and the rest. -/
theorem AppendTXTRecord_eq (dst : List Nat) (msg : Message) (txt : List Nat) (ttl : Nat) :
    AppendTXTRecord dst msg txt ttl
      = dst ++
        [0xc0, 0x0c, 0x00, TypeTXT % 256,
         (msg.Question.Class >>> 8) % 256, msg.Question.Class % 256,
         (ttl >>> 24) % 256, (ttl >>> 16) % 256, (ttl >>> 8) % 256, ttl % 256,
         ((txt.length + (txt.length + 0xff) / 0x100) >>> 8) % 256,
         (txt.length + (txt.length + 0xff) / 0x100) % 256]
        ++ ((AppendTXTRecord.loop [] txt).1
            ++ ((AppendTXTRecord.loop [] txt).2.length % 256 :: (AppendTXTRecord.loop [] txt).2)) := by
  unfold AppendTXTRecord
  simp only []
  rw [loop_append _ _ _ (le_refl _)]
  simp

/-- C15: for every text, the bytes `AppendTXTRecord` appends after the 12-byte record
prefix are a sequence of character-strings, each a length byte `L` followed by exactly
`L` bytes with `L` at most 255; the payloads concatenated in order are the text; every
chunk except the last has exactly 255 bytes, and for a text longer than 255 bytes the
last chunk is not empty. -/
theorem C15_txt_chunks (dst : List Nat) (msg : Message) (txt : List Nat) (ttl : Nat) :
    ∃ (pre : List Nat) (chunks : List (List Nat)) (last : List Nat),
      pre.length = 12
      ∧ AppendTXTRecord dst msg txt ttl
          = dst ++ pre ++ (chunks ++ [last]).flatMap (fun c => c.length :: c)
      ∧ (chunks ++ [last]).flatten = txt
      ∧ (∀ c ∈ chunks ++ [last], c.length ≤ 255)
      ∧ (∀ c ∈ chunks, c.length = 255)
      ∧ (255 < txt.length → last ≠ []) := by
  obtain ⟨full, h1, h2, h3, h4, h5, _⟩ := loop_chunks txt.length txt (le_refl _)
  refine ⟨[0xc0, 0x0c, 0x00, TypeTXT % 256,
         (msg.Question.Class >>> 8) % 256, msg.Question.Class % 256,
         (ttl >>> 24) % 256, (ttl >>> 16) % 256, (ttl >>> 8) % 256, ttl % 256,
         ((txt.length + (txt.length + 0xff) / 0x100) >>> 8) % 256,
         (txt.length + (txt.length + 0xff) / 0x100) % 256],
    full, (AppendTXTRecord.loop [] txt).2, rfl, ?_, ?_, ?_, h1, h5⟩
  · have e : (AppendTXTRecord.loop [] txt).2.length % 256
        = (AppendTXTRecord.loop [] txt).2.length := by omega
    rw [AppendTXTRecord_eq, h2, e]
    simp
  · simpa using h3
  · intro c hc
    rcases List.mem_append.mp hc with hc | hc
    · rw [h1 c hc]
    · rw [List.mem_singleton.mp hc]
      exact h4

/-- C16 (the code departs from the claim): for a text of 256 bytes `AppendTXTRecord`
writes RDLENGTH `01 01` = 257 and then 258 bytes of RDATA (a chunk of 255 bytes and a
chunk of 1 byte, each with its length byte); for the empty text it writes RDLENGTH
`00 00` and then 1 byte of RDATA (the length byte 0). -/
theorem C16_rdlength_at_256 :
    AppendTXTRecord [] mockHandlerMessage (List.replicate 256 97) 300
      = [0xc0, 0x0c, 0x00, 0x10, 0x00, 0x01, 0x00, 0x00, 0x01, 0x2c, 0x01, 0x01]
        ++ ((255 :: List.replicate 255 97) ++ [1, 97])
    ∧ ((255 :: List.replicate 255 97) ++ [1, 97]).length = 258
    ∧ (0x01 * 256 + 0x01 : Nat) ≠ 258
    ∧ AppendTXTRecord [] mockHandlerMessage [] 300
      = [0xc0, 0x0c, 0x00, 0x10, 0x00, 0x01, 0x00, 0x00, 0x01, 0x2c, 0x00, 0x00] ++ [0] := by
  have hl : AppendTXTRecord.loop [] (List.replicate 256 97)
      = (255 :: List.replicate 255 97, [97]) := by
    rw [loop_step _ _ (by rw [List.length_replicate]; decide),
      loop_done _ _ (by rw [List.length_drop, List.length_replicate]; decide)]
    simp only [List.take_replicate, List.drop_replicate, List.nil_append,
      List.singleton_append]
    rfl
  have h0 : AppendTXTRecord.loop [] [] = ([], []) := loop_done _ _ (by decide)
  have e : [0xc0, 0x0c, 0x00, TypeTXT % 256,
       (mockHandlerMessage.Question.Class >>> 8) % 256, mockHandlerMessage.Question.Class % 256,
       (300 >>> 24) % 256, (300 >>> 16) % 256, (300 >>> 8) % 256, 300 % 256,
       ((256 + (256 + 0xff) / 0x100) >>> 8) % 256, (256 + (256 + 0xff) / 0x100) % 256]
      = [0xc0, 0x0c, 0x00, 0x10, 0x00, 0x01, 0x00, 0x00, 0x01, 0x2c, 0x01, 0x01] := by
    decide
  refine ⟨?_, ?_, by decide, ?_⟩
  · rw [AppendTXTRecord_eq, hl]
    simp only [List.length_replicate, List.nil_append, List.length_singleton]
    rw [e]
  · simp only [List.length_append, List.length_cons, List.length_replicate, List.length_nil]
  · rw [AppendTXTRecord_eq, h0]
    decide

/-- C17 (the claim fails): for the text of 600 bytes `a`, `AppendTXTRecord` writes
RDLENGTH `02 5b` = 603 and three chunks of 255, 255 and 90 bytes; the output is not the
encoding of the claim, RDLENGTH 602 with two chunks of 255 and 345 bytes. -/
theorem C17_txt_600_counterexample :
    (List.replicate 600 97).length = 600
    ∧ AppendTXTRecord [] mockHandlerMessage (List.replicate 600 97) 300
      = [0xc0, 0x0c, 0x00, 0x10, 0x00, 0x01, 0x00, 0x00, 0x01, 0x2c, 0x02, 0x5b]
        ++ ((255 :: List.replicate 255 97) ++ ((255 :: List.replicate 255 97)
            ++ (90 :: List.replicate 90 97)))
    ∧ AppendTXTRecord [] mockHandlerMessage (List.replicate 600 97) 300
      ≠ [0xc0, 0x0c, 0x00, 0x10, 0x00, 0x01, 0x00, 0x00, 0x01, 0x2c, 0x02, 0x5a]
        ++ ((255 :: List.replicate 255 97) ++ (345 :: List.replicate 345 97)) := by
  have hl : AppendTXTRecord.loop [] (List.replicate 600 97)
      = ((255 :: List.replicate 255 97) ++ (255 :: List.replicate 255 97),
         List.replicate 90 97) := by
    rw [loop_step _ _ (by rw [List.length_replicate]; decide),
      loop_step _ _ (by rw [List.length_drop, List.length_replicate]; decide),
      loop_done _ _ (by
        rw [List.length_drop, List.length_drop, List.length_replicate]; decide)]
    simp only [List.take_replicate, List.drop_replicate, List.nil_append,
      List.singleton_append, List.cons_append, List.append_assoc]
    rfl
  have e : [0xc0, 0x0c, 0x00, TypeTXT % 256,
       (mockHandlerMessage.Question.Class >>> 8) % 256, mockHandlerMessage.Question.Class % 256,
       (300 >>> 24) % 256, (300 >>> 16) % 256, (300 >>> 8) % 256, 300 % 256,
       ((600 + (600 + 0xff) / 0x100) >>> 8) % 256, (600 + (600 + 0xff) / 0x100) % 256]
      = [0xc0, 0x0c, 0x00, 0x10, 0x00, 0x01, 0x00, 0x00, 0x01, 0x2c, 0x02, 0x5b] := by
    decide
  have h : AppendTXTRecord [] mockHandlerMessage (List.replicate 600 97) 300
      = [0xc0, 0x0c, 0x00, 0x10, 0x00, 0x01, 0x00, 0x00, 0x01, 0x2c, 0x02, 0x5b]
        ++ ((255 :: List.replicate 255 97) ++ ((255 :: List.replicate 255 97)
            ++ (90 :: List.replicate 90 97))) := by
    rw [AppendTXTRecord_eq, hl]
    simp only [List.length_replicate, List.nil_append]
    rw [e]
    simp only [List.append_assoc]
  refine ⟨List.length_replicate _ _, h, ?_⟩
  rw [h]
  intro hne
  exact absurd (List.append_inj_left hne rfl) (by decide)

/-- C17 (amended): every text of length exactly 600 is encoded by `AppendTXTRecord` as
three chunks of 255, 255 and 90 bytes, each after its length byte, with
RDLENGTH = 600 + 3 = 603. -/
theorem C17_txt_600_amended (dst : List Nat) (msg : Message) (txt : List Nat) (ttl : Nat)
    (hc : msg.Question.Class < 65536) (ht : ttl < 4294967296) (hlen : txt.length = 600) :
    AppendTXTRecord dst msg txt ttl
      = dst ++ ([0xC0, 0x0C, 0x00, 0x10] ++ be16 msg.Question.Class ++ be32 ttl ++ be16 603)
          ++ ((255 :: txt.take 255) ++ ((255 :: (txt.drop 255).take 255)
              ++ (90 :: txt.drop 510)))
    ∧ (txt.take 255).length = 255 ∧ ((txt.drop 255).take 255).length = 255
    ∧ (txt.drop 510).length = 90
    ∧ txt.take 255 ++ ((txt.drop 255).take 255 ++ txt.drop 510) = txt := by
  have hl : AppendTXTRecord.loop [] txt
      = ((255 :: txt.take 255) ++ (255 :: (txt.drop 255).take 255), txt.drop 510) := by
    rw [loop_step _ _ (by omega),
      loop_step _ _ (by rw [List.length_drop]; omega),
      loop_done _ _ (by rw [List.length_drop, List.length_drop]; omega)]
    simp
  refine ⟨?_, ?_, ?_, ?_, ?_⟩
  · rw [AppendTXTRecord_eq, hl, ← class_bytes _ hc, ← ttl_bytes _ ht, hlen]
    simp [TypeTXT, be16, hlen]
  · simp only [List.length_take]; omega
  · simp only [List.length_take, List.length_drop]; omega
  · simp only [List.length_drop]; omega
  · have e : txt.drop 510 = (txt.drop 255).drop 255 := by simp
    rw [e, List.take_append_drop, List.take_append_drop]

/-- C17 (amended), at the text of 600 bytes `a` with TTL 300 and class IN. -/
theorem C17_txt_600_amended_witness :
    AppendTXTRecord [] mockHandlerMessage (List.replicate 600 97) 300
      = [] ++ ([0xC0, 0x0C, 0x00, 0x10] ++ be16 mockHandlerMessage.Question.Class ++ be32 300
              ++ be16 603)
          ++ ((255 :: (List.replicate 600 97).take 255)
              ++ ((255 :: ((List.replicate 600 97).drop 255).take 255)
              ++ (90 :: (List.replicate 600 97).drop 510)))
    ∧ be16 603 = [0x02, 0x5b] :=
  ⟨(C17_txt_600_amended [] mockHandlerMessage (List.replicate 600 97) 300
      (by decide) (by decide) (List.length_replicate _ _)).1,
   by decide⟩

/-- C18: for every request, TTL and text of 1 to 255 bytes, the TXT reply is written in one
`Write` and consists of the header (the request's ID, QR = 1, rcode 0, counts 1, 1, 0,
0), the question, and one record `C0 0C 00 10`, the question's class, the TTL in 4
big-endian bytes, RDLENGTH = len(text) + 1, one length byte equal to len(text), then the
text bytes. -/
theorem C18_txt_reply {W : Type} (I : ResponseWriter W) (rw : W) (req : Message)
    (ttl : Nat) (txt : List Nat)
    (hid : req.Header.ID < 65536) (hty : req.Question.Type_ < 65536)
    (hc : req.Question.Class < 65536) (ht : ttl < 4294967296)
    (h1 : 1 ≤ txt.length) (h2 : txt.length ≤ 255) :
    ∃ b2 b3,
      decodeQR b2 = 1 ∧ decodeRCODE b3 = 0
      ∧ TXT I rw req ttl txt
          = ((I.Write rw
                ([req.Header.ID / 256, req.Header.ID % 256, b2, b3, 0, 1, 0, 1, 0, 0, 0, 0]
                  ++ (req.Question.Name ++ be16 req.Question.Type_ ++ be16 req.Question.Class)
                  ++ ([0xC0, 0x0C, 0x00, 0x10] ++ be16 req.Question.Class ++ be32 ttl
                        ++ be16 (txt.length + 1) ++ [txt.length] ++ txt))).1,
             { req with Raw :=
                [req.Header.ID / 256, req.Header.ID % 256, b2, b3, 0, 1, 0, 1, 0, 0, 0, 0]
                  ++ (req.Question.Name ++ be16 req.Question.Type_ ++ be16 req.Question.Class)
                  ++ ([0xC0, 0x0C, 0x00, 0x10] ++ be16 req.Question.Class ++ be32 ttl
                        ++ be16 (txt.length + 1) ++ [txt.length] ++ txt) }) := by
  obtain ⟨b2, b3, hq, hr, hH⟩ := reply_header req 1 hid hty hc (by decide)
  refine ⟨b2, b3, hq, hr, ?_⟩
  have e1 : txt.length + (txt.length + 0xff) / 0x100 = txt.length + 1 := by omega
  have e2 : txt.length % 256 = txt.length := by omega
  have hb := be16_shift (txt.length + 1) (by omega)
  have hcb := class_bytes _ hc
  have htb := ttl_bytes _ ht
  simp only [be16, be32] at hb hcb htb ⊢
  simp only [List.cons.injEq, and_true] at hb hcb htb
  unfold TXT
  simp only [List.take_zero]
  rw [hH, AppendTXTRecord_eq, loop_done _ _ h2, e1]
  simp [TypeTXT, e2, hb, hcb, htb, be16]

/-- C18, at the data of `TestHandlerTXT` (text `iamatxtrecord`, TTL 300): the in-memory
writer holds the hex of the test, ending in `c00c001000010000012c000e0d` and the text. -/
theorem C18_txt_reply_witness :
    (TXT memWriter ⟨[], none, none⟩ mockHandlerMessage 300 (bytesOf "iamatxtrecord")).1.data
      = [0x00, 0x02, 0x81, 0x00, 0x00, 0x01, 0x00, 0x01, 0x00, 0x00, 0x00, 0x00,
         0x02, 0x68, 0x6b, 0x04, 0x70, 0x68, 0x75, 0x73, 0x02, 0x6c, 0x75, 0x00,
         0x00, 0x01, 0x00, 0x01,
         0xc0, 0x0c, 0x00, 0x10, 0x00, 0x01, 0x00, 0x00, 0x01, 0x2c, 0x00, 0x0e,
         0x0d, 0x69, 0x61, 0x6d, 0x61, 0x74, 0x78, 0x74, 0x72, 0x65, 0x63, 0x6f, 0x72, 0x64]
    ∧ ∃ b2 b3,
      decodeQR b2 = 1 ∧ decodeRCODE b3 = 0
      ∧ TXT memWriter ⟨[], none, none⟩ mockHandlerMessage 300 (bytesOf "iamatxtrecord")
          = ((memWriter.Write ⟨[], none, none⟩
                ([mockHandlerMessage.Header.ID / 256, mockHandlerMessage.Header.ID % 256,
                    b2, b3, 0, 1, 0, 1, 0, 0, 0, 0]
                  ++ (mockHandlerMessage.Question.Name
                        ++ be16 mockHandlerMessage.Question.Type_
                        ++ be16 mockHandlerMessage.Question.Class)
                  ++ ([0xC0, 0x0C, 0x00, 0x10] ++ be16 mockHandlerMessage.Question.Class
                        ++ be32 300
                        ++ be16 ((bytesOf "iamatxtrecord").length + 1)
                        ++ [(bytesOf "iamatxtrecord").length] ++ bytesOf "iamatxtrecord"))).1,
             { mockHandlerMessage with Raw :=
                [mockHandlerMessage.Header.ID / 256, mockHandlerMessage.Header.ID % 256,
                    b2, b3, 0, 1, 0, 1, 0, 0, 0, 0]
                  ++ (mockHandlerMessage.Question.Name
                        ++ be16 mockHandlerMessage.Question.Type_
                        ++ be16 mockHandlerMessage.Question.Class)
                  ++ ([0xC0, 0x0C, 0x00, 0x10] ++ be16 mockHandlerMessage.Question.Class
                        ++ be32 300
                        ++ be16 ((bytesOf "iamatxtrecord").length + 1)
                        ++ [(bytesOf "iamatxtrecord").length] ++ bytesOf "iamatxtrecord") }) :=
  ⟨by
     unfold TXT
     simp only [List.take_zero]
     rw [AppendTXTRecord_eq, loop_done _ _ (by decide)]
     decide,
   C18_txt_reply memWriter ⟨[], none, none⟩ mockHandlerMessage 300
     (bytesOf "iamatxtrecord") (by decide) (by decide) (by decide) (by decide)
     (by decide) (by decide)⟩

/-! ## The in-memory writer -/

theorem memWriter_writes (ps : List (List Nat)) : ∀ rw : memResponseWriter,
    (ps.foldl (fun w q => (memResponseWriter.Write w q).1) rw).data = rw.data ++ ps.flatten
    ∧ (ps.foldl (fun w q => (memResponseWriter.Write w q).1) rw).raddr = rw.raddr
    ∧ (ps.foldl (fun w q => (memResponseWriter.Write w q).1) rw).laddr = rw.laddr := by
  induction ps with
  | nil => intro rw; simp
  | cons p ps ih =>
    intro rw
    obtain ⟨h1, h2, h3⟩ := ih (memResponseWriter.Write rw p).1
    simp only [List.foldl_cons, List.flatten_cons]
    rw [h1, h2, h3]
    simp [memResponseWriter.Write]

/-- C20: for the in-memory response writer, `Write(p)` returns `(len(p), nil)` and leaves
the buffer equal to its previous contents followed by `p`; after the writes `p1 ... pn`
on a fresh writer the buffer is `p1 ++ ... ++ pn`; `Write` changes neither address; on a
zero-value writer `LocalAddr` and `RemoteAddr` are nil. -/
theorem C20_mem_writer (rw : memResponseWriter) (p : List Nat) (ps : List (List Nat)) :
    (memResponseWriter.Write rw p).2 = (p.length, none)
    ∧ (memResponseWriter.Write rw p).1.data = rw.data ++ p
    ∧ (ps.foldl (fun w q => (memResponseWriter.Write w q).1) ⟨[], none, none⟩).data
        = ps.flatten
    ∧ (memResponseWriter.Write rw p).1.LocalAddr = rw.LocalAddr
    ∧ (memResponseWriter.Write rw p).1.RemoteAddr = rw.RemoteAddr
    ∧ memResponseWriter.LocalAddr ⟨[], none, none⟩ = none
    ∧ memResponseWriter.RemoteAddr ⟨[], none, none⟩ = none := by
  refine ⟨rfl, rfl, ?_, rfl, rfl, rfl, rfl⟩
  rw [(memWriter_writes ps ⟨[], none, none⟩).1]
  simp

/-! ## Replies as sequences of resource records -/

theorem pointer_byte (x : Nat) : 192 ≤ 0xc0 ||| x := by
  apply Nat.le_of_testBit
  intro i h
  rw [Nat.testBit_or, h]
  rfl

theorem splitRecords_record (n : Nat) (r rest : List Nat) (h : IsRecord r) :
    splitRecords (n + 1) (r ++ rest) = splitRecords n rest := by
  obtain ⟨h12, hp, hl⟩ := h
  have g0 : (r ++ rest).getD 0 0 = r.getD 0 0 := by
    simp only [List.getD_eq_getElem?_getD]
    rw [List.getElem?_append_left (by omega)]
  have g10 : (r ++ rest).getD 10 0 = r.getD 10 0 := by
    simp only [List.getD_eq_getElem?_getD]
    rw [List.getElem?_append_left (by omega)]
  have g11 : (r ++ rest).getD 11 0 = r.getD 11 0 := by
    simp only [List.getD_eq_getElem?_getD]
    rw [List.getElem?_append_left (by omega)]
  have hlen : (r ++ rest).length = r.length + rest.length := List.length_append _ _
  rw [splitRecords, g0, g10, g11, if_pos ⟨by omega, hp, by omega⟩, ← hl, List.drop_left]

theorem splitRecords_records (rs : List (List Nat)) (h : ∀ r ∈ rs, IsRecord r) (n : Nat)
    (rest : List Nat) :
    splitRecords (rs.length + n) (rs.flatten ++ rest) = splitRecords n rest := by
  induction rs with
  | nil => simp
  | cons r rs ih =>
    have e : (r :: rs).length + n = (rs.length + n) + 1 := by simp; omega
    rw [e, List.flatten_cons, List.append_assoc,
      splitRecords_record _ _ _ (h r (List.mem_cons_self _ _)),
      ih (fun x hx => h x (List.mem_cons_of_mem _ hx))]

/-- The header and question written by a record handler, by position: 12 header bytes
with the answer count `an` in bytes 6-7, then the question name and 4 more bytes. -/
theorem reply_layout (req : Message) (an : Nat) (han : an < 65536) :
    ∃ hdr tc : List Nat,
      hdr.length = 12 ∧ tc.length = 4 ∧ hdr.getD 6 0 = an / 256 ∧ hdr.getD 7 0 = an % 256
      ∧ AppendHeaderQuestion [] req RcodeSuccess 1 an 0 0
          = hdr ++ (req.Question.Name ++ tc) := by
  refine ⟨[(req.Header.ID >>> 8) % 256, (req.Header.ID &&& 0xff) % 256,
         (1 <<< (7 - 0)) % 256 ||| ((req.Header.Opcode % 256) <<< (7 - (1 + 3))) % 256
            ||| (req.Header.AA <<< (7 - 5)) % 256 ||| (req.Header.TC <<< (7 - 6)) % 256
            ||| req.Header.RD,
         (req.Header.RA <<< (7 - 0)) % 256 ||| (req.Header.Z <<< (7 - 1)) % 256
            ||| ((RcodeSuccess % 256) <<< (7 - (4 + 3))) % 256,
         (1 >>> 8) % 256, (1 &&& 0xff) % 256,
         (an >>> 8) % 256, (an &&& 0xff) % 256,
         (0 >>> 8) % 256, (0 &&& 0xff) % 256,
         (0 >>> 8) % 256, (0 &&& 0xff) % 256],
      [(req.Question.Type_ >>> 8) % 256, (req.Question.Type_ &&& 0xff) % 256,
       (req.Question.Class >>> 8) % 256, (req.Question.Class &&& 0xff) % 256],
    rfl, rfl, ?_, ?_, ?_⟩
  · exact shr8_byte _ han
  · exact and_ff_byte an
  · rw [AppendHeaderQuestion_eq, if_neg (show ¬ (1 = 0) by decide)]
    simp

/-- The header and question for `rs.length` answers, followed by the records `rs`, is a
reply with `rs.length` answers. -/
theorem answersSplit_of_records (req : Message) (rs : List (List Nat))
    (hn : rs.length < 65536) (h : ∀ r ∈ rs, IsRecord r) :
    answersSplit req rs.length
      (AppendHeaderQuestion [] req RcodeSuccess 1 rs.length 0 0 ++ rs.flatten) := by
  obtain ⟨hdr, tc, hh, htc, h6, h7, hH⟩ := reply_layout req rs.length hn
  refine ⟨rs.flatten, rfl, ?_, ?_, ?_, ?_⟩
  · rw [hH]
    simp only [List.length_append, hh, htc]
    omega
  · have e6 : (hdr ++ (req.Question.Name ++ tc) ++ rs.flatten).getD 6 0
        = rs.length / 256 := by
      rw [← h6]
      simp only [List.getD_eq_getElem?_getD]
      rw [List.append_assoc, List.getElem?_append_left (by omega)]
    have e7 : (hdr ++ (req.Question.Name ++ tc) ++ rs.flatten).getD 7 0
        = rs.length % 256 := by
      rw [← h7]
      simp only [List.getD_eq_getElem?_getD]
      rw [List.append_assoc, List.getElem?_append_left (by omega)]
    rw [hH, e6, e7]
    omega
  · rw [hH, List.append_assoc, ← hh, List.drop_left, List.append_assoc, List.take_left]
  · have := splitRecords_records rs h 0 []
    simpa [splitRecords] using this

theorem isRecord_host (msg : Message) (ttl : Nat) (ip : List Nat)
    (h : ip.length = 4 ∨ ip.length = 16) : IsRecord (hostRecordSpec msg ttl ip) := by
  unfold IsRecord hostRecordSpec
  by_cases h4 : ip.length = 4
  · simp [h4, be16, be32]
  · have h16 : ip.length = 16 := by omega
    by_cases hm : isIPv4Mapped ip
    · simp [h4, hm, be16, be32, h16]
    · simp [h4, hm, be16, be32, h16]

theorem isRecord_mx (c ttl : Nat) (rr : MXRecord) :
    IsRecord ([0xC0, 0x0C, 0x00, 0x0F] ++ be16 c ++ be32 ttl
      ++ be16 (4 + rr.Host.length) ++ (be16 rr.Priority ++ EncodeDomain [] rr.Host)) := by
  unfold IsRecord
  simp [be16, be32, EncodeDomain_length]
  omega

theorem isRecord_srv (c ttl p w q : Nat) (srv : List Nat) :
    IsRecord ([0xC0, 0x0C, 0x00, 0x21] ++ be16 c ++ be32 ttl
      ++ be16 (8 + srv.length) ++ (be16 p ++ be16 w ++ be16 q ++ EncodeDomain [] srv)) := by
  unfold IsRecord
  simp [be16, be32, EncodeDomain_length]
  omega

theorem isRecord_ptr (c ttl : Nat) (ptr : List Nat) (hlen : ptr.length ≤ 253) :
    IsRecord ([0xC0, 0x0C, 0x00, 0x0C] ++ be16 c ++ be32 ttl
      ++ [0x00, (2 + ptr.length) % 256] ++ EncodeDomain [] ptr) := by
  unfold IsRecord
  simp [be16, be32, EncodeDomain_length]
  omega

/-- The records written by the first loop of `AppendCNameRecord`, whatever the index and
the offset it starts from. -/
theorem cnames_records (msg : Message) (ttl : Nat) (cnames : List (List Nat))
    (h : ∀ c ∈ cnames, c.length ≤ 253) : ∀ (i : Nat) (dst : List Nat) (offset : Nat),
    ∃ rs : List (List Nat), rs.length = cnames.length ∧ (∀ r ∈ rs, IsRecord r)
      ∧ (AppendCNameRecord.cnames msg ttl i cnames dst offset).1 = dst ++ rs.flatten := by
  induction cnames with
  | nil =>
    intro i dst offset
    exact ⟨[], rfl, by simp, by simp [AppendCNameRecord.cnames]⟩
  | cons c cs ih =>
    intro i dst offset
    have hc := h c (List.mem_cons_self _ _)
    rw [AppendCNameRecord.cnames, EncodeDomain_eq]
    obtain ⟨rs, h1, h2, h3⟩ := ih (fun x hx => h x (List.mem_cons_of_mem _ hx)) (i + 1)
      (dst ++
        [0xc0 ||| ((offset >>> 8) % 256), offset % 256,
         0x00, TypeCNAME % 256,
         (msg.Question.Class >>> 8) % 256, msg.Question.Class % 256,
         (ttl >>> 24) % 256, (ttl >>> 16) % 256, (ttl >>> 8) % 256, ttl % 256,
         0x00, (c.length + 2) % 256] ++ EncodeDomain [] c)
      ((if i = 0 then offset + (msg.Question.Name.length + 2 + 2)
        else offset + (c.length + 2)) +
        [0xc0 ||| ((offset >>> 8) % 256), offset % 256,
         0x00, TypeCNAME % 256,
         (msg.Question.Class >>> 8) % 256, msg.Question.Class % 256,
         (ttl >>> 24) % 256, (ttl >>> 16) % 256, (ttl >>> 8) % 256, ttl % 256,
         0x00, (c.length + 2) % 256].length)
    refine ⟨([0xc0 ||| ((offset >>> 8) % 256), offset % 256,
         0x00, TypeCNAME % 256,
         (msg.Question.Class >>> 8) % 256, msg.Question.Class % 256,
         (ttl >>> 24) % 256, (ttl >>> 16) % 256, (ttl >>> 8) % 256, ttl % 256,
         0x00, (c.length + 2) % 256] ++ EncodeDomain [] c) :: rs, ?_, ?_, ?_⟩
    · simp [h1]
    · intro r hr
      rcases List.mem_cons.mp hr with rfl | hr
      · refine ⟨?_, ?_, ?_⟩
        · simp
        · exact pointer_byte _
        · have e : (c.length + 2) % 256 = c.length + 2 := by omega
          simp [EncodeDomain_length, e]
          omega
      · exact h2 r hr
    · rw [h3]
      simp

/-- One iteration of the second loop of `AppendCNameRecord` on a well-formed address. -/
theorem cname_hosts_cons (msg : Message) (ttl offset : Nat) (ip : List Nat)
    (h : ip.length = 4 ∨ ip.length = 16) :
    ∃ r, IsRecord r ∧ ∀ (ips : List (List Nat)) (dst : List Nat),
      AppendCNameRecord.hosts msg ttl offset (ip :: ips) dst
        = AppendCNameRecord.hosts msg ttl offset ips (dst ++ r) := by
  by_cases h4 : ip.length = 4
  · have e3 : ip[3]? = some ip[3] := List.getElem?_eq_getElem (by omega)
    refine ⟨[0xc0 ||| ((offset >>> 8) % 256), offset % 256,
             0x00, TypeA % 256,
             (msg.Question.Class >>> 8) % 256, msg.Question.Class % 256,
             (ttl >>> 24) % 256, (ttl >>> 16) % 256, (ttl >>> 8) % 256, ttl % 256,
             0x00, 0x04,
             ip.getD 0 0, ip.getD 1 0, ip.getD 2 0, ip.getD 3 0],
      ⟨by simp, pointer_byte _, by simp⟩, fun ips dst => ?_⟩
    rw [AppendCNameRecord.hosts, To4_of_four ip h4]
    simp only [e3]
  · have h16 : ip.length = 16 := by omega
    by_cases hm : isIPv4Mapped ip
    · obtain ⟨e, hd⟩ := To4_of_mapped ip hm
      have e3 : (ip.drop 12)[3]? = some (ip.drop 12)[3] :=
        List.getElem?_eq_getElem (by omega)
      refine ⟨[0xc0 ||| ((offset >>> 8) % 256), offset % 256,
             0x00, TypeA % 256,
             (msg.Question.Class >>> 8) % 256, msg.Question.Class % 256,
             (ttl >>> 24) % 256, (ttl >>> 16) % 256, (ttl >>> 8) % 256, ttl % 256,
             0x00, 0x04,
             (ip.drop 12).getD 0 0, (ip.drop 12).getD 1 0, (ip.drop 12).getD 2 0, (ip.drop 12).getD 3 0],
        ⟨by simp, pointer_byte _, by simp⟩, fun ips dst => ?_⟩
      rw [AppendCNameRecord.hosts, e]
      simp only [e3]
    · have e15 : ip[15]? = some ip[15] := List.getElem?_eq_getElem (by omega)
      refine ⟨[0xc0 ||| ((offset >>> 8) % 256), offset % 256,
             0x00, TypeAAAA % 256,
             (msg.Question.Class >>> 8) % 256, msg.Question.Class % 256,
             (ttl >>> 24) % 256, (ttl >>> 16) % 256, (ttl >>> 8) % 256, ttl % 256,
             0x00, 0x10,
             ip.getD 0 0, ip.getD 1 0, ip.getD 2 0, ip.getD 3 0,
             ip.getD 4 0, ip.getD 5 0, ip.getD 6 0, ip.getD 7 0,
             ip.getD 8 0, ip.getD 9 0, ip.getD 10 0, ip.getD 11 0,
             ip.getD 12 0, ip.getD 13 0, ip.getD 14 0, ip.getD 15 0],
        ⟨by simp, pointer_byte _, by simp⟩, fun ips dst => ?_⟩
      rw [AppendCNameRecord.hosts, To4_of_other ip h16 hm]
      simp only [e15]

/-- The records written by the second loop of `AppendCNameRecord`. -/
theorem cname_hosts_records (msg : Message) (ttl offset : Nat) (ips : List (List Nat))
    (h : ∀ ip ∈ ips, ip.length = 4 ∨ ip.length = 16) : ∀ dst : List Nat,
    ∃ rs : List (List Nat), rs.length = ips.length ∧ (∀ r ∈ rs, IsRecord r)
      ∧ AppendCNameRecord.hosts msg ttl offset ips dst = some (dst ++ rs.flatten) := by
  induction ips with
  | nil =>
    intro dst
    exact ⟨[], rfl, by simp, by simp [AppendCNameRecord.hosts]⟩
  | cons ip ips ih =>
    intro dst
    obtain ⟨r, hr, hstep⟩ := cname_hosts_cons msg ttl offset ip (h ip (List.mem_cons_self _ _))
    obtain ⟨rs, h1, h2, h3⟩ := ih (fun x hx => h x (List.mem_cons_of_mem _ hx)) (dst ++ r)
    refine ⟨r :: rs, by simp [h1], ?_, ?_⟩
    · intro x hx
      rcases List.mem_cons.mp hx with rfl | hx
      · exact hr
      · exact h2 x hx
    · rw [hstep, h3]
      simp

/-- The bytes appended by `AppendHostRecord` on well-formed addresses. -/
theorem AppendHostRecord_eq (dst : List Nat) (msg : Message) (ips : List (List Nat))
    (ttl : Nat) (hc : msg.Question.Class < 65536) (ht : ttl < 4294967296)
    (hlen : ∀ ip ∈ ips, ip.length = 4 ∨ ip.length = 16) :
    AppendHostRecord dst msg ips ttl
      = some (dst ++ (ips.map (hostRecordSpec msg ttl)).flatten) := by
  induction ips generalizing dst with
  | nil => simp [AppendHostRecord]
  | cons ip ips ih =>
    rw [AppendHostRecord_cons dst msg ip ips ttl hc ht (hlen ip (List.mem_cons_self _ _)),
      ih _ (fun x hx => hlen x (List.mem_cons_of_mem _ hx))]
    simp

theorem HOST_split {W : Type} (I : ResponseWriter W) (rw : W) (req : Message) (ttl : Nat)
    (ips : List (List Nat))
    (hc : req.Question.Class < 65536) (ht : ttl < 4294967296)
    (hips : ∀ ip ∈ ips, ip.length = 4 ∨ ip.length = 16) (hn : ips.length < 65536) :
    ∃ out, HOST I rw req ttl ips = some out ∧ out.1 = (I.Write rw out.2.Raw).1
      ∧ answersSplit req ips.length out.2.Raw := by
  have em : ips.length % 65536 = ips.length := Nat.mod_eq_of_lt hn
  have hA := fun dst raw => AppendHostRecord_eq dst { req with Raw := raw } ips ttl hc ht hips
  have hs := answersSplit_of_records req (ips.map (hostRecordSpec req ttl))
    (by rw [List.length_map]; exact hn)
    (fun r hr => by
      obtain ⟨ip, hip, rfl⟩ := List.mem_map.mp hr
      exact isRecord_host req ttl ip (hips ip hip))
  rw [List.length_map] at hs
  refine ⟨((I.Write rw (AppendHeaderQuestion [] req RcodeSuccess 1 ips.length 0 0
      ++ (ips.map (hostRecordSpec req ttl)).flatten)).1,
    { req with Raw := AppendHeaderQuestion [] req RcodeSuccess 1 ips.length 0 0
      ++ (ips.map (hostRecordSpec req ttl)).flatten }), ?_, rfl, hs⟩
  unfold HOST
  simp only [List.take_zero]
  rw [em, hA]
  rfl

theorem CNAME_split {W : Type} (I : ResponseWriter W) (rw : W) (req : Message) (ttl : Nat)
    (cnames ips : List (List Nat))
    (hcn : ∀ c ∈ cnames, c.length ≤ 253)
    (hips : ∀ ip ∈ ips, ip.length = 4 ∨ ip.length = 16)
    (hn : cnames.length + ips.length < 65536) :
    ∃ out, CNAME I rw req ttl cnames ips = some out ∧ out.1 = (I.Write rw out.2.Raw).1
      ∧ answersSplit req (cnames.length + ips.length) out.2.Raw := by
  have em : (cnames.length + ips.length) % 65536 = cnames.length + ips.length :=
    Nat.mod_eq_of_lt hn
  obtain ⟨H, hHdef⟩ : ∃ H, H
      = AppendHeaderQuestion [] req RcodeSuccess 1 (cnames.length + ips.length) 0 0 :=
    ⟨_, rfl⟩
  obtain ⟨rs1, a1, a2, a3⟩ :=
    cnames_records { req with Raw := H } ttl cnames hcn 0 H 0x0c
  obtain ⟨rs2, b1, b2, b3⟩ :=
    cname_hosts_records { req with Raw := H } ttl
      (AppendCNameRecord.cnames { req with Raw := H } ttl 0 cnames H 0x0c).2
      ips hips (H ++ rs1.flatten)
  have hs := answersSplit_of_records req (rs1 ++ rs2)
    (by rw [List.length_append, a1, b1]; exact hn)
    (fun r hr => by
      rcases List.mem_append.mp hr with hr | hr
      · exact a2 r hr
      · exact b2 r hr)
  rw [List.length_append, a1, b1, ← hHdef] at hs
  refine ⟨((I.Write rw (H ++ (rs1 ++ rs2).flatten)).1,
    { req with Raw := H ++ (rs1 ++ rs2).flatten }), ?_, rfl, hs⟩
  unfold CNAME AppendCNameRecord
  simp only [List.take_zero]
  rw [em, ← hHdef, a3, b3]
  simp

theorem MX_split {W : Type} (I : ResponseWriter W) (rw : W) (req : Message) (ttl : Nat)
    (mx : List MXRecord)
    (hc : req.Question.Class < 65536) (ht : ttl < 4294967296)
    (hmx : ∀ rr ∈ mx, rr.Priority < 65536 ∧ rr.Host.length ≤ 253)
    (hn : mx.length < 65536) :
    (MX I rw req ttl mx).1 = (I.Write rw (MX I rw req ttl mx).2.Raw).1
      ∧ answersSplit req mx.length (MX I rw req ttl mx).2.Raw := by
  refine ⟨rfl, ?_⟩
  have em : mx.length % 65536 = mx.length := Nat.mod_eq_of_lt hn
  have hA := fun dst raw => AppendMXRecord_eq dst { req with Raw := raw } mx ttl hc ht
    (fun rr hrr => ⟨(hmx rr hrr).1, by have := (hmx rr hrr).2; omega⟩)
  have hs := answersSplit_of_records req (mx.map (fun rr =>
      [0xC0, 0x0C, 0x00, 0x0F] ++ be16 req.Question.Class ++ be32 ttl
        ++ be16 (4 + rr.Host.length) ++ (be16 rr.Priority ++ EncodeDomain [] rr.Host)))
    (by rw [List.length_map]; exact hn)
    (fun r hr => by
      obtain ⟨rr, _, rfl⟩ := List.mem_map.mp hr
      exact isRecord_mx _ _ rr)
  rw [List.length_map] at hs
  have e : (MX I rw req ttl mx).2.Raw
      = AppendHeaderQuestion [] req RcodeSuccess 1 mx.length 0 0 ++ (mx.map (fun rr =>
          [0xC0, 0x0C, 0x00, 0x0F] ++ be16 req.Question.Class ++ be32 ttl
            ++ be16 (4 + rr.Host.length) ++ (be16 rr.Priority ++ EncodeDomain [] rr.Host))).flatten := by
    unfold MX
    simp only [List.take_zero]
    rw [em, hA]
    rfl
  rw [e]
  exact hs

theorem SRV_split {W : Type} (I : ResponseWriter W) (rw : W) (req : Message) (ttl : Nat)
    (srv : List Nat) (p w q : Nat)
    (hc : req.Question.Class < 65536) (ht : ttl < 4294967296)
    (hp : p < 65536) (hw : w < 65536) (hq : q < 65536) (hlen : srv.length ≤ 253) :
    (SRV I rw req ttl srv p w q).1 = (I.Write rw (SRV I rw req ttl srv p w q).2.Raw).1
      ∧ answersSplit req 1 (SRV I rw req ttl srv p w q).2.Raw := by
  refine ⟨rfl, ?_⟩
  have hA := fun dst raw =>
    AppendSRVRecord_eq dst { req with Raw := raw } srv p w q ttl hc ht hp hw hq (by omega)
  have hs := answersSplit_of_records req
    [[0xC0, 0x0C, 0x00, 0x21] ++ be16 req.Question.Class ++ be32 ttl
      ++ be16 (8 + srv.length) ++ (be16 p ++ be16 w ++ be16 q ++ EncodeDomain [] srv)]
    (by simp only [List.length_singleton]; omega)
    (fun r hr => by
      rw [List.mem_singleton.mp hr]
      exact isRecord_srv _ _ _ _ _ srv)
  have e : (SRV I rw req ttl srv p w q).2.Raw
      = AppendHeaderQuestion [] req RcodeSuccess 1 1 0 0
        ++ [[0xC0, 0x0C, 0x00, 0x21] ++ be16 req.Question.Class ++ be32 ttl
          ++ be16 (8 + srv.length)
          ++ (be16 p ++ be16 w ++ be16 q ++ EncodeDomain [] srv)].flatten := by
    unfold SRV
    simp only [List.take_zero]
    rw [hA]
    simp
  rw [e]
  exact hs

theorem PTR_split {W : Type} (I : ResponseWriter W) (rw : W) (req : Message) (ttl : Nat)
    (ptr : List Nat)
    (hc : req.Question.Class < 65536) (ht : ttl < 4294967296) (hlen : ptr.length ≤ 253) :
    (PTR I rw req ttl ptr).1 = (I.Write rw (PTR I rw req ttl ptr).2.Raw).1
      ∧ answersSplit req 1 (PTR I rw req ttl ptr).2.Raw := by
  refine ⟨rfl, ?_⟩
  have hA := fun dst raw => AppendPTRRecord_eq dst { req with Raw := raw } ptr ttl hc ht
  have hs := answersSplit_of_records req
    [[0xC0, 0x0C, 0x00, 0x0C] ++ be16 req.Question.Class ++ be32 ttl
      ++ [0x00, (2 + ptr.length) % 256] ++ EncodeDomain [] ptr]
    (by simp only [List.length_singleton]; omega)
    (fun r hr => by
      rw [List.mem_singleton.mp hr]
      exact isRecord_ptr _ _ ptr hlen)
  have e : (PTR I rw req ttl ptr).2.Raw
      = AppendHeaderQuestion [] req RcodeSuccess 1 1 0 0
        ++ [[0xC0, 0x0C, 0x00, 0x0C] ++ be16 req.Question.Class ++ be32 ttl
          ++ [0x00, (2 + ptr.length) % 256] ++ EncodeDomain [] ptr].flatten := by
    unfold PTR
    simp only [List.take_zero]
    rw [hA]
    simp
  rw [e]
  exact hs

/-- C19: for every request and every reply built by HOST, CNAME, MX, SRV or PTR with fewer
than 65536 records, addresses of length 4 or 16 and names of at most 253 bytes, the
reply is written in one `Write`; it is the 12-byte header and the question followed by
the answer bytes, header bytes 6-7 hold ANCount = the number of records asked for, and
the answer bytes split into exactly ANCount consecutive resource records, each a 2-byte
name pointer, 2-byte type, 2-byte class, 4-byte TTL, 2-byte RDLENGTH and exactly
RDLENGTH bytes of RDATA, with no bytes left over. -/
theorem C19_answers_split {W : Type} (I : ResponseWriter W) (rw : W) (req : Message)
    (ttl : Nat) (ips : List (List Nat)) (cnames cips : List (List Nat))
    (mx : List MXRecord) (srv : List Nat) (priovrity weight port : Nat) (ptr : List Nat)
    (hc : req.Question.Class < 65536) (ht : ttl < 4294967296)
    (hips : ∀ ip ∈ ips, ip.length = 4 ∨ ip.length = 16) (hn1 : ips.length < 65536)
    (hcn : ∀ c ∈ cnames, c.length ≤ 253)
    (hcips : ∀ ip ∈ cips, ip.length = 4 ∨ ip.length = 16)
    (hn2 : cnames.length + cips.length < 65536)
    (hmx : ∀ rr ∈ mx, rr.Priority < 65536 ∧ rr.Host.length ≤ 253) (hn3 : mx.length < 65536)
    (hp : priovrity < 65536) (hw : weight < 65536) (hq : port < 65536)
    (hsrv : srv.length ≤ 253) (hptr : ptr.length ≤ 253) :
    (∃ out, HOST I rw req ttl ips = some out ∧ out.1 = (I.Write rw out.2.Raw).1
        ∧ answersSplit req ips.length out.2.Raw)
    ∧ (∃ out, CNAME I rw req ttl cnames cips = some out ∧ out.1 = (I.Write rw out.2.Raw).1
        ∧ answersSplit req (cnames.length + cips.length) out.2.Raw)
    ∧ ((MX I rw req ttl mx).1 = (I.Write rw (MX I rw req ttl mx).2.Raw).1
        ∧ answersSplit req mx.length (MX I rw req ttl mx).2.Raw)
    ∧ ((SRV I rw req ttl srv priovrity weight port).1
          = (I.Write rw (SRV I rw req ttl srv priovrity weight port).2.Raw).1
        ∧ answersSplit req 1 (SRV I rw req ttl srv priovrity weight port).2.Raw)
    ∧ ((PTR I rw req ttl ptr).1 = (I.Write rw (PTR I rw req ttl ptr).2.Raw).1
        ∧ answersSplit req 1 (PTR I rw req ttl ptr).2.Raw) :=
  ⟨HOST_split I rw req ttl ips hc ht hips hn1,
   CNAME_split I rw req ttl cnames cips hcn hcips hn2,
   MX_split I rw req ttl mx hc ht hmx hn3,
   SRV_split I rw req ttl srv priovrity weight port hc ht hp hw hq hsrv,
   PTR_split I rw req ttl ptr hc ht hptr⟩

/-- C19, at the data of the handler tests (TTL 300; address 1.2.4.8; CNAME targets
`cname.example.com`, `a` with addresses 1.2.4.8 and ::1; MX 10 ptr.example.org; SRV
service1.example.com 1000 1000 8001; PTR ptr.example.org).  The A record of
`TestHandlerHost` splits off as one record with nothing left; with one more byte a byte
is left over, and with its last byte missing it does not split.  The empty buffer is not
a reply, and the header and question alone, announcing one answer, are not a reply with
one answer. -/
theorem C19_answers_split_witness :
    splitRecords 1 [0xc0, 0x0c, 0, 1, 0, 1, 0, 0, 1, 0x2c, 0, 4, 1, 2, 4, 8] = some []
    ∧ splitRecords 1 [0xc0, 0x0c, 0, 1, 0, 1, 0, 0, 1, 0x2c, 0, 4, 1, 2, 4, 8, 0] = some [0]
    ∧ splitRecords 1 [0xc0, 0x0c, 0, 1, 0, 1, 0, 0, 1, 0x2c, 0, 4, 1, 2, 4] = none
    ∧ ¬ answersSplit mockHandlerMessage 0 []
    ∧ ¬ answersSplit mockHandlerMessage 1
          (AppendHeaderQuestion [] mockHandlerMessage RcodeSuccess 1 1 0 0)
    ∧ ((∃ out, HOST memWriter ⟨[], none, none⟩ mockHandlerMessage 300 [[1, 2, 4, 8]] = some out
          ∧ out.1 = (memWriter.Write ⟨[], none, none⟩ out.2.Raw).1
          ∧ answersSplit mockHandlerMessage [[1, 2, 4, 8]].length out.2.Raw)
      ∧ (∃ out, CNAME memWriter ⟨[], none, none⟩ mockHandlerMessage 300
            [bytesOf "cname.example.com", bytesOf "a"]
            [[1, 2, 4, 8], [0, 0, 0, 0, 0, 0, 0, 0, 0, 0, 0, 0, 0, 0, 0, 1]] = some out
          ∧ out.1 = (memWriter.Write ⟨[], none, none⟩ out.2.Raw).1
          ∧ answersSplit mockHandlerMessage
              ([bytesOf "cname.example.com", bytesOf "a"].length
                + [[1, 2, 4, 8], [0, 0, 0, 0, 0, 0, 0, 0, 0, 0, 0, 0, 0, 0, 0, 1]].length)
              out.2.Raw)
      ∧ ((MX memWriter ⟨[], none, none⟩ mockHandlerMessage 300
              [⟨10, bytesOf "ptr.example.org"⟩]).1
            = (memWriter.Write ⟨[], none, none⟩
                (MX memWriter ⟨[], none, none⟩ mockHandlerMessage 300
                  [⟨10, bytesOf "ptr.example.org"⟩]).2.Raw).1
          ∧ answersSplit mockHandlerMessage
              [(⟨10, bytesOf "ptr.example.org"⟩ : MXRecord)].length
              (MX memWriter ⟨[], none, none⟩ mockHandlerMessage 300
                [⟨10, bytesOf "ptr.example.org"⟩]).2.Raw)
      ∧ ((SRV memWriter ⟨[], none, none⟩ mockHandlerMessage 300
              (bytesOf "service1.example.com") 1000 1000 8001).1
            = (memWriter.Write ⟨[], none, none⟩
                (SRV memWriter ⟨[], none, none⟩ mockHandlerMessage 300
                  (bytesOf "service1.example.com") 1000 1000 8001).2.Raw).1
          ∧ answersSplit mockHandlerMessage 1
              (SRV memWriter ⟨[], none, none⟩ mockHandlerMessage 300
                (bytesOf "service1.example.com") 1000 1000 8001).2.Raw)
      ∧ ((PTR memWriter ⟨[], none, none⟩ mockHandlerMessage 300
              (bytesOf "ptr.example.org")).1
            = (memWriter.Write ⟨[], none, none⟩
                (PTR memWriter ⟨[], none, none⟩ mockHandlerMessage 300
                  (bytesOf "ptr.example.org")).2.Raw).1
          ∧ answersSplit mockHandlerMessage 1
              (PTR memWriter ⟨[], none, none⟩ mockHandlerMessage 300
                (bytesOf "ptr.example.org")).2.Raw)) :=
  ⟨by decide, by decide, by decide,
   (fun ⟨_, h, _⟩ => by
      have hl := congrArg List.length h
      rw [List.length_append] at hl
      have h28 : (AppendHeaderQuestion [] mockHandlerMessage RcodeSuccess 1 0 0 0).length
          = 28 := by decide
      rw [h28] at hl
      simp only [List.length_nil] at hl
      omega),
   (fun ⟨records, h, _, _, _, hs⟩ => by
      have hr : records = [] := by
        have hl := congrArg List.length h
        rw [List.length_append] at hl
        exact List.length_eq_zero.mp (by omega)
      rw [hr] at hs
      exact absurd hs (by decide)),
   C19_answers_split memWriter ⟨[], none, none⟩ mockHandlerMessage 300 [[1, 2, 4, 8]]
     [bytesOf "cname.example.com", bytesOf "a"]
     [[1, 2, 4, 8], [0, 0, 0, 0, 0, 0, 0, 0, 0, 0, 0, 0, 0, 0, 0, 1]]
     [⟨10, bytesOf "ptr.example.org"⟩] (bytesOf "service1.example.com") 1000 1000 8001
     (bytesOf "ptr.example.org")
     (by decide) (by decide) (by decide) (by decide) (by decide) (by decide) (by decide)
     (by decide) (by decide) (by decide) (by decide) (by decide) (by decide) (by decide)⟩

/-! ## Frame, totality and algebra of the appenders -/

/-- With offset 12 the second loop of `AppendCNameRecord` is the loop of
`AppendHostRecord`. -/
theorem hosts_offset12 (msg : Message) (ttl : Nat) (ips : List (List Nat)) :
    ∀ dst : List Nat,
      AppendCNameRecord.hosts msg ttl 0x0c ips dst = AppendHostRecord dst msg ips ttl := by
  induction ips with
  | nil => intro dst; rfl
  | cons ip ips ih =>
    intro dst
    rw [AppendCNameRecord.hosts, AppendHostRecord]
    cases hT : To4 ip with
    | some ip4 =>
      cases h3 : ip4[3]? with
      | none => simp only [h3]
      | some v =>
        simp only [h3]
        rw [ih]
        rfl
    | none =>
      cases h15 : ip[15]? with
      | none => simp only [h15]
      | some v =>
        simp only [h15]
        rw [ih]
        rfl

/-- One iteration of the second loop of `AppendCNameRecord` on any address: a record is
appended and the loop goes on, or the loop fails. -/
theorem cname_hosts_step (msg : Message) (ttl offset : Nat) (ip : List Nat) :
    (∃ r, ∀ (ips : List (List Nat)) (dst : List Nat),
        AppendCNameRecord.hosts msg ttl offset (ip :: ips) dst
          = AppendCNameRecord.hosts msg ttl offset ips (dst ++ r))
    ∨ (∀ (ips : List (List Nat)) (dst : List Nat),
        AppendCNameRecord.hosts msg ttl offset (ip :: ips) dst = none) := by
  cases hT : To4 ip with
  | some ip4 =>
    cases h3 : ip4[3]? with
    | none =>
      right
      intro ips dst
      rw [AppendCNameRecord.hosts, hT]
      simp only [h3]
    | some v =>
      left
      refine ⟨[0xc0 ||| ((offset >>> 8) % 256), offset % 256,
             0x00, TypeA % 256,
             (msg.Question.Class >>> 8) % 256, msg.Question.Class % 256,
             (ttl >>> 24) % 256, (ttl >>> 16) % 256, (ttl >>> 8) % 256, ttl % 256,
             0x00, 0x04,
             ip4.getD 0 0, ip4.getD 1 0, ip4.getD 2 0, ip4.getD 3 0], fun ips dst => ?_⟩
      rw [AppendCNameRecord.hosts, hT]
      simp only [h3]
  | none =>
    cases h15 : ip[15]? with
    | none =>
      right
      intro ips dst
      rw [AppendCNameRecord.hosts, hT]
      simp only [h15]
    | some v =>
      left
      refine ⟨[0xc0 ||| ((offset >>> 8) % 256), offset % 256,
             0x00, TypeAAAA % 256,
             (msg.Question.Class >>> 8) % 256, msg.Question.Class % 256,
             (ttl >>> 24) % 256, (ttl >>> 16) % 256, (ttl >>> 8) % 256, ttl % 256,
             0x00, 0x10,
             ip.getD 0 0, ip.getD 1 0, ip.getD 2 0, ip.getD 3 0,
             ip.getD 4 0, ip.getD 5 0, ip.getD 6 0, ip.getD 7 0,
             ip.getD 8 0, ip.getD 9 0, ip.getD 10 0, ip.getD 11 0,
             ip.getD 12 0, ip.getD 13 0, ip.getD 14 0, ip.getD 15 0], fun ips dst => ?_⟩
      rw [AppendCNameRecord.hosts, hT]
      simp only [h15]

/-- The second loop of `AppendCNameRecord` over a concatenation of address lists. -/
theorem cname_hosts_append (msg : Message) (ttl offset : Nat) (xs ys : List (List Nat)) :
    ∀ dst : List Nat,
      AppendCNameRecord.hosts msg ttl offset (xs ++ ys) dst
        = (AppendCNameRecord.hosts msg ttl offset xs dst).bind
            (fun d => AppendCNameRecord.hosts msg ttl offset ys d) := by
  induction xs with
  | nil => intro dst; simp [AppendCNameRecord.hosts]
  | cons ip xs ih =>
    intro dst
    rcases cname_hosts_step msg ttl offset ip with ⟨r, hr⟩ | hn
    · rw [List.cons_append, hr, hr, ih]
    · rw [List.cons_append, hn, hn]
      rfl

/-- On well-formed addresses the second loop of `AppendCNameRecord` succeeds, and what it
appends does not depend on the buffer. -/
theorem cname_hosts_frame (msg : Message) (ttl offset : Nat) (ips : List (List Nat))
    (h : ∀ ip ∈ ips, ip.length = 4 ∨ ip.length = 16) :
    ∃ app : List Nat, ∀ dst : List Nat,
      AppendCNameRecord.hosts msg ttl offset ips dst = some (dst ++ app) := by
  induction ips with
  | nil => exact ⟨[], fun dst => by simp [AppendCNameRecord.hosts]⟩
  | cons ip ips ih =>
    obtain ⟨r, _, hstep⟩ := cname_hosts_cons msg ttl offset ip (h ip (List.mem_cons_self _ _))
    obtain ⟨app, happ⟩ := ih (fun x hx => h x (List.mem_cons_of_mem _ hx))
    refine ⟨r ++ app, fun dst => ?_⟩
    rw [hstep, happ, List.append_assoc]

/-- The first loop of `AppendCNameRecord` only appends to the buffer, and neither what it
appends nor the offset it leaves depends on the buffer. -/
theorem cnames_frame (msg : Message) (ttl : Nat) (cs : List (List Nat)) :
    ∀ (i : Nat) (dst : List Nat) (offset : Nat),
      AppendCNameRecord.cnames msg ttl i cs dst offset
        = (dst ++ (AppendCNameRecord.cnames msg ttl i cs [] offset).1,
           (AppendCNameRecord.cnames msg ttl i cs [] offset).2) := by
  induction cs with
  | nil => intro i dst offset; simp [AppendCNameRecord.cnames]
  | cons c cs ih =>
    intro i dst offset
    rw [AppendCNameRecord.cnames, AppendCNameRecord.cnames, EncodeDomain_eq, ih,
      EncodeDomain_eq ([] ++ _), ih (i + 1) ([] ++ _ ++ _)]
    simp

theorem AppendHostRecord_frame (msg : Message) (ttl : Nat) (ips : List (List Nat))
    (h : ∀ ip ∈ ips, ip.length = 4 ∨ ip.length = 16) :
    ∃ app : List Nat, ∀ dst : List Nat,
      AppendHostRecord dst msg ips ttl = some (dst ++ app) := by
  obtain ⟨app, happ⟩ := cname_hosts_frame msg ttl 0x0c ips h
  exact ⟨app, fun dst => by rw [← hosts_offset12, happ]⟩

theorem AppendCNameRecord_frame (msg : Message) (ttl : Nat) (cnames ips : List (List Nat))
    (h : ∀ ip ∈ ips, ip.length = 4 ∨ ip.length = 16) :
    ∃ app : List Nat, ∀ dst : List Nat,
      AppendCNameRecord dst msg cnames ips ttl = some (dst ++ app) := by
  obtain ⟨app, happ⟩ := cname_hosts_frame msg ttl
    (AppendCNameRecord.cnames msg ttl 0 cnames [] 0x0c).2 ips h
  refine ⟨(AppendCNameRecord.cnames msg ttl 0 cnames [] 0x0c).1 ++ app, fun dst => ?_⟩
  unfold AppendCNameRecord
  simp only []
  rw [cnames_frame msg ttl cnames 0 dst 0x0c, happ, List.append_assoc]

theorem AppendMXRecord_append (msg : Message) (ttl : Nat) (xs ys : List MXRecord) :
    ∀ dst : List Nat,
      AppendMXRecord dst msg (xs ++ ys) ttl
        = AppendMXRecord (AppendMXRecord dst msg xs ttl) msg ys ttl := by
  induction xs with
  | nil => intro dst; simp [AppendMXRecord]
  | cons rr xs ih =>
    intro dst
    rw [List.cons_append, AppendMXRecord, AppendMXRecord, ih]

theorem AppendMXRecord_frame (msg : Message) (ttl : Nat) (mx : List MXRecord) :
    ∀ dst : List Nat, AppendMXRecord dst msg mx ttl = dst ++ AppendMXRecord [] msg mx ttl := by
  induction mx with
  | nil => intro dst; simp [AppendMXRecord]
  | cons rr mx ih =>
    intro dst
    rw [AppendMXRecord, AppendMXRecord, EncodeDomain_eq, ih, EncodeDomain_eq ([] ++ _),
      ih ([] ++ _ ++ _)]
    simp

/-- C21: for every appender of record.go and every well-formed input there are bytes
`app`, the same for every `dst`, such that the appender returns `dst ++ app`: the buffer
keeps `dst` as a prefix and what is appended does not depend on `dst`. -/
theorem C21_appenders_frame (msg : Message) (rcode qd an ns ar ttl : Nat)
    (ips cnames cips : List (List Nat)) (srv : List Nat) (priovrity weight port : Nat)
    (mx : List MXRecord) (ptr txt : List Nat)
    (hips : ∀ ip ∈ ips, ip.length = 4 ∨ ip.length = 16)
    (hcips : ∀ ip ∈ cips, ip.length = 4 ∨ ip.length = 16) :
    (∃ app, ∀ dst, AppendHeaderQuestion dst msg rcode qd an ns ar = dst ++ app)
    ∧ (∃ app, ∀ dst, AppendHostRecord dst msg ips ttl = some (dst ++ app))
    ∧ (∃ app, ∀ dst, AppendCNameRecord dst msg cnames cips ttl = some (dst ++ app))
    ∧ (∃ app, ∀ dst, AppendSRVRecord dst msg srv priovrity weight port ttl = dst ++ app)
    ∧ (∃ app, ∀ dst, AppendMXRecord dst msg mx ttl = dst ++ app)
    ∧ (∃ app, ∀ dst, AppendPTRRecord dst msg ptr ttl = dst ++ app)
    ∧ (∃ app, ∀ dst, AppendTXTRecord dst msg txt ttl = dst ++ app) := by
  refine ⟨⟨AppendHeaderQuestion [] msg rcode qd an ns ar, fun dst => ?_⟩,
    AppendHostRecord_frame msg ttl ips hips,
    AppendCNameRecord_frame msg ttl cnames cips hcips,
    ⟨AppendSRVRecord [] msg srv priovrity weight port ttl, fun dst => ?_⟩,
    ⟨AppendMXRecord [] msg mx ttl, fun dst => AppendMXRecord_frame msg ttl mx dst⟩,
    ⟨AppendPTRRecord [] msg ptr ttl, fun dst => ?_⟩,
    ⟨AppendTXTRecord [] msg txt ttl, fun dst => ?_⟩⟩
  · rw [AppendHeaderQuestion_eq dst, AppendHeaderQuestion_eq []]
    simp
  · unfold AppendSRVRecord
    simp only []
    rw [EncodeDomain_eq, EncodeDomain_eq ([] ++ _)]
    simp
  · unfold AppendPTRRecord
    simp only []
    rw [EncodeDomain_eq, EncodeDomain_eq ([] ++ _)]
    simp
  · rw [AppendTXTRecord_eq dst, AppendTXTRecord_eq []]
    simp

/-- C21, at the data of the handler tests: two different buffers get the same bytes
appended after them. -/
theorem C21_appenders_frame_witness :
    AppendHostRecord [9, 9] mockHandlerMessage [[1, 2, 4, 8]] 300
      = (AppendHostRecord [7] mockHandlerMessage [[1, 2, 4, 8]] 300).map
          (fun out => [9, 9] ++ out.drop 1)
    ∧ ((∃ app, ∀ dst, AppendHeaderQuestion dst mockHandlerMessage 0 1 1 0 0 = dst ++ app)
      ∧ (∃ app, ∀ dst,
          AppendHostRecord dst mockHandlerMessage [[1, 2, 4, 8]] 300 = some (dst ++ app))
      ∧ (∃ app, ∀ dst,
          AppendCNameRecord dst mockHandlerMessage [bytesOf "cname.example.com"]
            [[1, 2, 4, 8]] 300 = some (dst ++ app))
      ∧ (∃ app, ∀ dst,
          AppendSRVRecord dst mockHandlerMessage (bytesOf "service1.example.com")
            1000 1000 8001 300 = dst ++ app)
      ∧ (∃ app, ∀ dst,
          AppendMXRecord dst mockHandlerMessage [⟨10, bytesOf "ptr.example.org"⟩] 300
            = dst ++ app)
      ∧ (∃ app, ∀ dst,
          AppendPTRRecord dst mockHandlerMessage (bytesOf "ptr.example.org") 300 = dst ++ app)
      ∧ (∃ app, ∀ dst,
          AppendTXTRecord dst mockHandlerMessage (bytesOf "iamatxtrecord") 300 = dst ++ app)) :=
  ⟨by decide,
   C21_appenders_frame mockHandlerMessage 0 1 1 0 0 300 [[1, 2, 4, 8]]
     [bytesOf "cname.example.com"] [[1, 2, 4, 8]] (bytesOf "service1.example.com")
     1000 1000 8001 [⟨10, bytesOf "ptr.example.org"⟩] (bytesOf "ptr.example.org")
     (bytesOf "iamatxtrecord") (by decide) (by decide)⟩

/-- C22: on a list of addresses each of length 4 or 16, `AppendHostRecord` and
`AppendCNameRecord` return a buffer (no index is out of range); on the address
`[1, 2, 3, 4, 5]` of length 5 the index 15 is out of range and both fail. -/
theorem C22_no_out_of_range (dst : List Nat) (msg : Message) (cnames : List (List Nat))
    (ips : List (List Nat)) (ttl : Nat)
    (h : ∀ ip ∈ ips, ip.length = 4 ∨ ip.length = 16) :
    (∃ out, AppendHostRecord dst msg ips ttl = some out)
    ∧ (∃ out, AppendCNameRecord dst msg cnames ips ttl = some out)
    ∧ To4 [1, 2, 3, 4, 5] = none
    ∧ ([1, 2, 3, 4, 5] : List Nat)[15]? = none
    ∧ AppendHostRecord dst msg [[1, 2, 3, 4, 5]] ttl = none
    ∧ AppendCNameRecord dst msg cnames [[1, 2, 3, 4, 5]] ttl = none := by
  obtain ⟨a1, h1⟩ := AppendHostRecord_frame msg ttl ips h
  obtain ⟨a2, h2⟩ := AppendCNameRecord_frame msg ttl cnames ips h
  refine ⟨⟨_, h1 dst⟩, ⟨_, h2 dst⟩, by decide, by decide, ?_, ?_⟩
  · have hT : To4 [1, 2, 3, 4, 5] = none := by decide
    rw [AppendHostRecord, hT]
    rfl
  · have hT : To4 [1, 2, 3, 4, 5] = none := by decide
    unfold AppendCNameRecord
    simp only []
    rw [AppendCNameRecord.hosts, hT]
    rfl

/-- C22, at the addresses 1.2.4.8 and ::1 after one CNAME target. -/
theorem C22_no_out_of_range_witness :
    (∃ out, AppendHostRecord [] mockHandlerMessage
        [[1, 2, 4, 8], [0, 0, 0, 0, 0, 0, 0, 0, 0, 0, 0, 0, 0, 0, 0, 1]] 300 = some out)
    ∧ (∃ out, AppendCNameRecord [] mockHandlerMessage [bytesOf "a"]
        [[1, 2, 4, 8], [0, 0, 0, 0, 0, 0, 0, 0, 0, 0, 0, 0, 0, 0, 0, 1]] 300 = some out)
    ∧ To4 [1, 2, 3, 4, 5] = none
    ∧ ([1, 2, 3, 4, 5] : List Nat)[15]? = none
    ∧ AppendHostRecord [] mockHandlerMessage [[1, 2, 3, 4, 5]] 300 = none
    ∧ AppendCNameRecord [] mockHandlerMessage [bytesOf "a"] [[1, 2, 3, 4, 5]] 300 = none :=
  C22_no_out_of_range [] mockHandlerMessage [bytesOf "a"]
    [[1, 2, 4, 8], [0, 0, 0, 0, 0, 0, 0, 0, 0, 0, 0, 0, 0, 0, 0, 1]] 300 (by decide)

/-- C23: for every 16-byte IPv4-mapped address `ip`, `AppendHostRecord` on `[ip]` returns
what it returns on `[ip[12:16]]`: one record of 16 bytes, `C0 0C 00 01` (type A), class,
TTL, `00 04` and the last four bytes of `ip`. -/
theorem C23_mapped_as_A (dst : List Nat) (msg : Message) (ip : List Nat) (ttl : Nat)
    (h : isIPv4Mapped ip) :
    AppendHostRecord dst msg [ip] ttl = AppendHostRecord dst msg [(ip.drop 12).take 4] ttl
    ∧ ∃ mid : List Nat, mid.length = 6
        ∧ AppendHostRecord dst msg [ip] ttl
            = some (dst ++ ([0xC0, 0x0C, 0x00, 0x01] ++ mid ++ [0x00, 0x04]
                ++ (ip.drop 12).take 4))
        ∧ ((ip.drop 12).take 4).length = 4 := by
  obtain ⟨e, hd⟩ := To4_of_mapped ip h
  have ht : (ip.drop 12).take 4 = ip.drop 12 := List.take_of_length_le (by omega)
  have e3 : (ip.drop 12)[3]? = some (ip.drop 12)[3] := List.getElem?_eq_getElem (by omega)
  have h1 : AppendHostRecord dst msg [ip] ttl
      = some (dst ++ ([0xC0, 0x0C, 0x00, 0x01]
          ++ [(msg.Question.Class >>> 8) % 256, msg.Question.Class % 256,
              (ttl >>> 24) % 256, (ttl >>> 16) % 256, (ttl >>> 8) % 256, ttl % 256]
          ++ [0x00, 0x04] ++ ip.drop 12)) := by
    rw [AppendHostRecord, e]
    simp only [e3]
    rw [AppendHostRecord]
    conv_rhs => rw [← getD_four (ip.drop 12) hd]
    rfl
  have h2 : AppendHostRecord dst msg [ip.drop 12] ttl
      = some (dst ++ ([0xC0, 0x0C, 0x00, 0x01]
          ++ [(msg.Question.Class >>> 8) % 256, msg.Question.Class % 256,
              (ttl >>> 24) % 256, (ttl >>> 16) % 256, (ttl >>> 8) % 256, ttl % 256]
          ++ [0x00, 0x04] ++ ip.drop 12)) := by
    rw [AppendHostRecord, To4_of_four _ hd]
    simp only [e3]
    rw [AppendHostRecord]
    conv_rhs => rw [← getD_four (ip.drop 12) hd]
    rfl
  rw [ht]
  exact ⟨h1.trans h2.symm,
    [(msg.Question.Class >>> 8) % 256, msg.Question.Class % 256,
     (ttl >>> 24) % 256, (ttl >>> 16) % 256, (ttl >>> 8) % 256, ttl % 256],
    rfl, h1, hd⟩

/-- C23, at the IPv4-mapped form of 9.9.9.9. -/
theorem C23_mapped_as_A_witness :
    AppendHostRecord [] mockHandlerMessage
        [[0, 0, 0, 0, 0, 0, 0, 0, 0, 0, 0xff, 0xff, 9, 9, 9, 9]] 300
      = some [0xc0, 0x0c, 0x00, 0x01, 0x00, 0x01, 0x00, 0x00, 0x01, 0x2c, 0x00, 0x04, 9, 9, 9, 9]
    ∧ AppendHostRecord [] mockHandlerMessage
        [[0, 0, 0, 0, 0, 0, 0, 0, 0, 0, 0xff, 0xff, 9, 9, 9, 9]] 300
      = AppendHostRecord [] mockHandlerMessage
          [(([0, 0, 0, 0, 0, 0, 0, 0, 0, 0, 0xff, 0xff, 9, 9, 9, 9] : List Nat).drop 12).take 4]
          300 :=
  ⟨by decide,
   (C23_mapped_as_A [] mockHandlerMessage
      [0, 0, 0, 0, 0, 0, 0, 0, 0, 0, 0xff, 0xff, 9, 9, 9, 9] 300 (by decide)).1⟩

/-- C24: for every dst, message, TTL and list of addresses, `AppendCNameRecord` with an
empty list of CNAME targets returns exactly what `AppendHostRecord` returns; the loop
over no targets leaves the buffer and the offset 12 as they were, so the owner name of
every address record is `C0 0C`. -/
theorem C24_no_cname_is_host (dst : List Nat) (msg : Message) (ips : List (List Nat))
    (ttl : Nat) :
    AppendCNameRecord dst msg [] ips ttl = AppendHostRecord dst msg ips ttl
    ∧ AppendCNameRecord.cnames msg ttl 0 [] dst 0x0c = (dst, 12)
    ∧ [0xc0 ||| ((12 >>> 8) % 256), 12 % 256] = [0xC0, 0x0C] := by
  refine ⟨?_, rfl, by decide⟩
  unfold AppendCNameRecord
  simp only [AppendCNameRecord.cnames]
  exact hosts_offset12 msg ttl ips dst

/-- C26: `AppendHostRecord` and `AppendMXRecord` distribute over list concatenation:
appending `xs ++ ys` to `dst` gives what appending `xs` to `dst` and then `ys` to the
result gives, and appending the empty list returns `dst` unchanged. -/
theorem C26_concat (dst : List Nat) (msg : Message) (ttl : Nat)
    (xs ys : List (List Nat)) (mxs mys : List MXRecord)
    (hxs : ∀ ip ∈ xs, ip.length = 4 ∨ ip.length = 16)
    (hys : ∀ ip ∈ ys, ip.length = 4 ∨ ip.length = 16) :
    (∃ mid out, AppendHostRecord dst msg xs ttl = some mid
        ∧ AppendHostRecord mid msg ys ttl = some out
        ∧ AppendHostRecord dst msg (xs ++ ys) ttl = some out)
    ∧ AppendMXRecord dst msg (mxs ++ mys) ttl
        = AppendMXRecord (AppendMXRecord dst msg mxs ttl) msg mys ttl
    ∧ AppendHostRecord dst msg [] ttl = some dst
    ∧ AppendMXRecord dst msg [] ttl = dst := by
  obtain ⟨a1, h1⟩ := AppendHostRecord_frame msg ttl xs hxs
  obtain ⟨a2, h2⟩ := AppendHostRecord_frame msg ttl ys hys
  refine ⟨⟨dst ++ a1, dst ++ a1 ++ a2, h1 dst, h2 _, ?_⟩,
    AppendMXRecord_append msg ttl mxs mys dst, rfl, rfl⟩
  rw [← hosts_offset12, cname_hosts_append, hosts_offset12, h1 dst]
  simp only [Option.some_bind]
  rw [hosts_offset12, h2]

/-- C26, at two addresses and two MX entries. -/
theorem C26_concat_witness :
    AppendHostRecord [] mockHandlerMessage
        ([[1, 2, 4, 8]] ++ [[0, 0, 0, 0, 0, 0, 0, 0, 0, 0, 0, 0, 0, 0, 0, 1]]) 300
      = (AppendHostRecord [] mockHandlerMessage [[1, 2, 4, 8]] 300).bind
          (fun mid => AppendHostRecord mid mockHandlerMessage
            [[0, 0, 0, 0, 0, 0, 0, 0, 0, 0, 0, 0, 0, 0, 0, 1]] 300)
    ∧ ((∃ mid out, AppendHostRecord [] mockHandlerMessage [[1, 2, 4, 8]] 300 = some mid
          ∧ AppendHostRecord mid mockHandlerMessage
              [[0, 0, 0, 0, 0, 0, 0, 0, 0, 0, 0, 0, 0, 0, 0, 1]] 300 = some out
          ∧ AppendHostRecord [] mockHandlerMessage
              ([[1, 2, 4, 8]] ++ [[0, 0, 0, 0, 0, 0, 0, 0, 0, 0, 0, 0, 0, 0, 0, 1]]) 300
              = some out)
      ∧ AppendMXRecord [] mockHandlerMessage
          ([⟨10, bytesOf "ptr.example.org"⟩] ++ [⟨20, bytesOf "b.example.org"⟩]) 300
        = AppendMXRecord
            (AppendMXRecord [] mockHandlerMessage [⟨10, bytesOf "ptr.example.org"⟩] 300)
            mockHandlerMessage [⟨20, bytesOf "b.example.org"⟩] 300
      ∧ AppendHostRecord [] mockHandlerMessage [] 300 = some []
      ∧ AppendMXRecord [] mockHandlerMessage [] 300 = []) :=
  ⟨by decide,
   C26_concat [] mockHandlerMessage 300 [[1, 2, 4, 8]]
     [[0, 0, 0, 0, 0, 0, 0, 0, 0, 0, 0, 0, 0, 0, 0, 1]]
     [⟨10, bytesOf "ptr.example.org"⟩] [⟨20, bytesOf "b.example.org"⟩]
     (by decide) (by decide)⟩

/-! ## Frame of the reply builders -/

theorem Error_raw {W : Type} (I : ResponseWriter W) (rw : W) (req : Message) (code : Nat)
    (raw : List Nat) : Error I rw { req with Raw := raw } code = Error I rw req code := rfl

theorem HOST_raw {W : Type} (I : ResponseWriter W) (rw : W) (req : Message) (ttl : Nat)
    (ips : List (List Nat)) (raw : List Nat) :
    HOST I rw { req with Raw := raw } ttl ips = HOST I rw req ttl ips := rfl

theorem CNAME_raw {W : Type} (I : ResponseWriter W) (rw : W) (req : Message) (ttl : Nat)
    (cnames ips : List (List Nat)) (raw : List Nat) :
    CNAME I rw { req with Raw := raw } ttl cnames ips = CNAME I rw req ttl cnames ips := rfl

theorem SRV_raw {W : Type} (I : ResponseWriter W) (rw : W) (req : Message) (ttl : Nat)
    (srv : List Nat) (p w q : Nat) (raw : List Nat) :
    SRV I rw { req with Raw := raw } ttl srv p w q = SRV I rw req ttl srv p w q := rfl

theorem MX_raw {W : Type} (I : ResponseWriter W) (rw : W) (req : Message) (ttl : Nat)
    (mx : List MXRecord) (raw : List Nat) :
    MX I rw { req with Raw := raw } ttl mx = MX I rw req ttl mx := rfl

theorem PTR_raw {W : Type} (I : ResponseWriter W) (rw : W) (req : Message) (ttl : Nat)
    (ptr : List Nat) (raw : List Nat) :
    PTR I rw { req with Raw := raw } ttl ptr = PTR I rw req ttl ptr := rfl

theorem TXT_raw {W : Type} (I : ResponseWriter W) (rw : W) (req : Message) (ttl : Nat)
    (txt : List Nat) (raw : List Nat) :
    TXT I rw { req with Raw := raw } ttl txt = TXT I rw req ttl txt := rfl

theorem To4_some_length (ip ip4 : List Nat) (h : To4 ip = some ip4) : ip4.length = 4 := by
  unfold To4 at h
  by_cases h4 : ip.length = 4
  · rw [if_pos h4] at h
    cases h
    exact h4
  · rw [if_neg h4] at h
    by_cases hm : ip.length = 16 ∧ (ip.take 10).all (fun b => b == 0) ∧
        ip.getD 10 0 = 0xff ∧ ip.getD 11 0 = 0xff
    · rw [if_pos hm] at h
      cases h
      simp only [List.length_take, List.length_drop]
      omega
    · rw [if_neg hm] at h
      cases h

theorem To4_none_length (ip : List Nat) (h : To4 ip = none) : ip.length ≠ 4 := by
  intro h4
  rw [To4_of_four ip h4] at h
  cases h

/-- One iteration of the second loop of `AppendCNameRecord` on an address of length 4 or
at least 16: no index is out of range, a record is appended and the loop goes on. -/
theorem cname_hosts_good (msg : Message) (ttl offset : Nat) (ip : List Nat)
    (h : ip.length = 4 ∨ 16 ≤ ip.length) :
    ∃ r, ∀ (ips : List (List Nat)) (dst : List Nat),
      AppendCNameRecord.hosts msg ttl offset (ip :: ips) dst
        = AppendCNameRecord.hosts msg ttl offset ips (dst ++ r) := by
  rcases cname_hosts_step msg ttl offset ip with hr | hn
  · exact hr
  · exfalso
    have hnone := hn [] []
    rw [AppendCNameRecord.hosts] at hnone
    cases hT : To4 ip with
    | some ip4 =>
      have hl := To4_some_length ip ip4 hT
      have e3 : ip4[3]? = some ip4[3] := List.getElem?_eq_getElem (by omega)
      rw [hT] at hnone
      simp only [e3, AppendCNameRecord.hosts] at hnone
      cases hnone
    | none =>
      have hl := To4_none_length ip hT
      have e15 : ip[15]? = some ip[15] := List.getElem?_eq_getElem (by omega)
      rw [hT] at hnone
      simp only [e15, AppendCNameRecord.hosts] at hnone
      cases hnone

/-- One iteration of the second loop of `AppendCNameRecord` on an address of another
length: `To4` gives nil and the index 15 is out of range. -/
theorem cname_hosts_bad (msg : Message) (ttl offset : Nat) (ip : List Nat)
    (h : ¬ (ip.length = 4 ∨ 16 ≤ ip.length)) (ips : List (List Nat)) (dst : List Nat) :
    AppendCNameRecord.hosts msg ttl offset (ip :: ips) dst = none := by
  have hT : To4 ip = none := by
    unfold To4
    rw [if_neg (by omega), if_neg]
    rintro ⟨h16, _⟩
    omega
  have e15 : ip[15]? = none := List.getElem?_eq_none (by omega)
  rw [AppendCNameRecord.hosts, hT]
  simp only [e15]

theorem cname_hosts_returns (msg : Message) (ttl offset : Nat) (ips : List (List Nat))
    (h : ∀ ip ∈ ips, ip.length = 4 ∨ 16 ≤ ip.length) :
    ∃ app : List Nat, ∀ dst : List Nat,
      AppendCNameRecord.hosts msg ttl offset ips dst = some (dst ++ app) := by
  induction ips with
  | nil => exact ⟨[], fun dst => by simp [AppendCNameRecord.hosts]⟩
  | cons ip ips ih =>
    obtain ⟨r, hstep⟩ := cname_hosts_good msg ttl offset ip (h ip (List.mem_cons_self _ _))
    obtain ⟨app, happ⟩ := ih (fun x hx => h x (List.mem_cons_of_mem _ hx))
    refine ⟨r ++ app, fun dst => ?_⟩
    rw [hstep, happ, List.append_assoc]

theorem cname_hosts_fails (msg : Message) (ttl offset : Nat) (ips : List (List Nat))
    (h : ∃ ip ∈ ips, ¬ (ip.length = 4 ∨ 16 ≤ ip.length)) :
    ∀ dst : List Nat, AppendCNameRecord.hosts msg ttl offset ips dst = none := by
  induction ips with
  | nil =>
    obtain ⟨ip, hip, _⟩ := h
    cases hip
  | cons ip ips ih =>
    intro dst
    by_cases hg : ip.length = 4 ∨ 16 ≤ ip.length
    · obtain ⟨r, hstep⟩ := cname_hosts_good msg ttl offset ip hg
      obtain ⟨x, hx, hbad⟩ := h
      rcases List.mem_cons.mp hx with rfl | hx
      · exact absurd hg hbad
      · rw [hstep]
        exact ih ⟨x, hx, hbad⟩ _
    · exact cname_hosts_bad msg ttl offset ip hg ips dst

theorem HOST_frame {W : Type} (I : ResponseWriter W) (rw : W) (req : Message) (ttl : Nat)
    (ips : List (List Nat)) (hips : ∀ ip ∈ ips, ip.length = 4 ∨ 16 ≤ ip.length) :
    ReplyFrame I rw req (fun r => HOST I rw r ttl ips) := by
  obtain ⟨app, happ⟩ := cname_hosts_returns
    { req with Raw := AppendHeaderQuestion [] req RcodeSuccess 1 (ips.length % 65536) 0 0 }
    ttl 0x0c ips hips
  have h : HOST I rw req ttl ips
      = some ((I.Write rw
          (AppendHeaderQuestion [] req RcodeSuccess 1 (ips.length % 65536) 0 0 ++ app)).1,
        { req with Raw :=
          AppendHeaderQuestion [] req RcodeSuccess 1 (ips.length % 65536) 0 0 ++ app }) := by
    unfold HOST
    simp only [List.take_zero]
    rw [← hosts_offset12, happ]
  exact ⟨_, h, rfl, rfl, rfl, rfl, fun raw => (HOST_raw I rw req ttl ips raw).trans h⟩

theorem CNAME_frame {W : Type} (I : ResponseWriter W) (rw : W) (req : Message) (ttl : Nat)
    (cnames ips : List (List Nat)) (hips : ∀ ip ∈ ips, ip.length = 4 ∨ 16 ≤ ip.length) :
    ReplyFrame I rw req (fun r => CNAME I rw r ttl cnames ips) := by
  obtain ⟨H, hH⟩ : ∃ H, H = AppendHeaderQuestion [] req RcodeSuccess 1
      ((cnames.length + ips.length) % 65536) 0 0 := ⟨_, rfl⟩
  obtain ⟨app, happ⟩ := cname_hosts_returns { req with Raw := H } ttl
    (AppendCNameRecord.cnames { req with Raw := H } ttl 0 cnames H 0x0c).2 ips hips
  have h : CNAME I rw req ttl cnames ips
      = some ((I.Write rw
          ((AppendCNameRecord.cnames { req with Raw := H } ttl 0 cnames H 0x0c).1 ++ app)).1,
        { req with Raw :=
          ((AppendCNameRecord.cnames { req with Raw := H } ttl 0 cnames H 0x0c).1
            ++ app) }) := by
    unfold CNAME AppendCNameRecord
    simp only [List.take_zero]
    rw [← hH, happ]
  exact ⟨_, h, rfl, rfl, rfl, rfl, fun raw => (CNAME_raw I rw req ttl cnames ips raw).trans h⟩

theorem HOST_panics {W : Type} (I : ResponseWriter W) (rw : W) (req : Message) (ttl : Nat)
    (ips : List (List Nat)) (h : ∃ ip ∈ ips, ¬ (ip.length = 4 ∨ 16 ≤ ip.length)) :
    HOST I rw req ttl ips = none := by
  unfold HOST
  simp only [List.take_zero]
  rw [← hosts_offset12, cname_hosts_fails _ _ _ ips h]

theorem CNAME_panics {W : Type} (I : ResponseWriter W) (rw : W) (req : Message) (ttl : Nat)
    (cnames ips : List (List Nat))
    (h : ∃ ip ∈ ips, ¬ (ip.length = 4 ∨ 16 ≤ ip.length)) :
    CNAME I rw req ttl cnames ips = none := by
  unfold CNAME AppendCNameRecord
  simp only [List.take_zero]
  rw [cname_hosts_fails _ _ _ ips h]

/-- C25 (the claim fails): for the request of the handler tests and the single address
`[1, 2, 3, 4, 5]` of length 5, `HOST` does not return (the index `ip[15]` is out of
range), so nothing is written and the frame of the claim does not hold. -/
theorem C25_reply_frame_counterexample :
    HOST memWriter ⟨[], none, none⟩ mockHandlerMessage 300 [[1, 2, 3, 4, 5]] = none
    ∧ ¬ ReplyFrame memWriter ⟨[], none, none⟩ mockHandlerMessage
          (fun r => HOST memWriter ⟨[], none, none⟩ r 300 [[1, 2, 3, 4, 5]]) := by
  have h : HOST memWriter ⟨[], none, none⟩ mockHandlerMessage 300 [[1, 2, 3, 4, 5]] = none := by
    decide
  refine ⟨h, ?_⟩
  rintro ⟨out, hout, _⟩
  have hout2 : HOST memWriter ⟨[], none, none⟩ mockHandlerMessage 300 [[1, 2, 3, 4, 5]]
      = some out := hout
  rw [h] at hout2
  cases hout2

/-- C25 (amended): every reply builder of handler.go (Error, HOST, CNAME, SRV, MX, PTR,
TXT), for HOST and CNAME on addresses each of length 4 or at least 16, returns, leaves
`req.Header`, `req.Domain` and `req.Question` unchanged, sets `req.Raw` to exactly the
bytes it passes to the writer in one `Write`, and gives the same result for a request
that differs only in `Raw`; on a list with an address of another length HOST and CNAME
do not return. -/
theorem C25_reply_frame_amended {W : Type} (I : ResponseWriter W) (rw : W) (req : Message)
    (code ttl : Nat) (ips cnames cips : List (List Nat)) (srv : List Nat)
    (priovrity weight port : Nat) (mx : List MXRecord) (ptr txt : List Nat)
    (hips : ∀ ip ∈ ips, ip.length = 4 ∨ 16 ≤ ip.length)
    (hcips : ∀ ip ∈ cips, ip.length = 4 ∨ 16 ≤ ip.length) :
    ReplyFrame I rw req (fun r => some (Error I rw r code))
    ∧ ReplyFrame I rw req (fun r => HOST I rw r ttl ips)
    ∧ ReplyFrame I rw req (fun r => CNAME I rw r ttl cnames cips)
    ∧ ReplyFrame I rw req (fun r => some (SRV I rw r ttl srv priovrity weight port))
    ∧ ReplyFrame I rw req (fun r => some (MX I rw r ttl mx))
    ∧ ReplyFrame I rw req (fun r => some (PTR I rw r ttl ptr))
    ∧ ReplyFrame I rw req (fun r => some (TXT I rw r ttl txt))
    ∧ ∀ bad : List (List Nat), (∃ ip ∈ bad, ¬ (ip.length = 4 ∨ 16 ≤ ip.length)) →
        HOST I rw req ttl bad = none ∧ CNAME I rw req ttl cnames bad = none :=
  ⟨⟨Error I rw req code, rfl, rfl, rfl, rfl, rfl,
      fun raw => congrArg some (Error_raw I rw req code raw)⟩,
   HOST_frame I rw req ttl ips hips,
   CNAME_frame I rw req ttl cnames cips hcips,
   ⟨SRV I rw req ttl srv priovrity weight port, rfl, rfl, rfl, rfl, rfl,
      fun raw => congrArg some (SRV_raw I rw req ttl srv priovrity weight port raw)⟩,
   ⟨MX I rw req ttl mx, rfl, rfl, rfl, rfl, rfl,
      fun raw => congrArg some (MX_raw I rw req ttl mx raw)⟩,
   ⟨PTR I rw req ttl ptr, rfl, rfl, rfl, rfl, rfl,
      fun raw => congrArg some (PTR_raw I rw req ttl ptr raw)⟩,
   ⟨TXT I rw req ttl txt, rfl, rfl, rfl, rfl, rfl,
      fun raw => congrArg some (TXT_raw I rw req ttl txt raw)⟩,
   fun bad hbad => ⟨HOST_panics I rw req ttl bad hbad, CNAME_panics I rw req ttl cnames bad hbad⟩⟩

/-- C25 (amended), at the request of the handler tests with the in-memory writer and the
addresses 1.2.4.8 and a 17-byte address: started from a request whose `Raw` holds other
bytes, `Error` and `HOST` write the same reply, and the 17-byte address is written as an
AAAA record of its first 16 bytes. -/
theorem C25_reply_frame_amended_witness :
    (Error memWriter ⟨[], none, none⟩ { mockHandlerMessage with Raw := [1, 2, 3] }
        RcodeNameError).2
      = { mockHandlerMessage with
            Raw := [0x00, 0x02, 0x81, 0x03, 0x00, 0x00, 0x00, 0x00, 0x00, 0x00, 0x00, 0x00] }
    ∧ HOST memWriter ⟨[], none, none⟩ { mockHandlerMessage with Raw := [1, 2, 3] } 300
        [[1, 2, 4, 8], [1, 2, 3, 4, 5, 6, 7, 8, 9, 10, 11, 12, 13, 14, 15, 16, 17]]
      = HOST memWriter ⟨[], none, none⟩ mockHandlerMessage 300
        [[1, 2, 4, 8], [1, 2, 3, 4, 5, 6, 7, 8, 9, 10, 11, 12, 13, 14, 15, 16, 17]]
    ∧ AppendHostRecord [] mockHandlerMessage
        [[1, 2, 3, 4, 5, 6, 7, 8, 9, 10, 11, 12, 13, 14, 15, 16, 17]] 300
      = some [0xc0, 0x0c, 0x00, 0x1c, 0x00, 0x01, 0x00, 0x00, 0x01, 0x2c, 0x00, 0x10,
              1, 2, 3, 4, 5, 6, 7, 8, 9, 10, 11, 12, 13, 14, 15, 16]
    ∧ (ReplyFrame memWriter ⟨[], none, none⟩ mockHandlerMessage
          (fun r => some (Error memWriter ⟨[], none, none⟩ r RcodeNameError))
      ∧ ReplyFrame memWriter ⟨[], none, none⟩ mockHandlerMessage
          (fun r => HOST memWriter ⟨[], none, none⟩ r 300
            [[1, 2, 4, 8], [1, 2, 3, 4, 5, 6, 7, 8, 9, 10, 11, 12, 13, 14, 15, 16, 17]])
      ∧ ReplyFrame memWriter ⟨[], none, none⟩ mockHandlerMessage
          (fun r => CNAME memWriter ⟨[], none, none⟩ r 300 [bytesOf "cname.example.com"]
            [[1, 2, 4, 8]])
      ∧ ReplyFrame memWriter ⟨[], none, none⟩ mockHandlerMessage
          (fun r => some (SRV memWriter ⟨[], none, none⟩ r 300
            (bytesOf "service1.example.com") 1000 1000 8001))
      ∧ ReplyFrame memWriter ⟨[], none, none⟩ mockHandlerMessage
          (fun r => some (MX memWriter ⟨[], none, none⟩ r 300
            [⟨10, bytesOf "ptr.example.org"⟩]))
      ∧ ReplyFrame memWriter ⟨[], none, none⟩ mockHandlerMessage
          (fun r => some (PTR memWriter ⟨[], none, none⟩ r 300 (bytesOf "ptr.example.org")))
      ∧ ReplyFrame memWriter ⟨[], none, none⟩ mockHandlerMessage
          (fun r => some (TXT memWriter ⟨[], none, none⟩ r 300 (bytesOf "iamatxtrecord")))
      ∧ ∀ bad : List (List Nat), (∃ ip ∈ bad, ¬ (ip.length = 4 ∨ 16 ≤ ip.length)) →
          HOST memWriter ⟨[], none, none⟩ mockHandlerMessage 300 bad = none
          ∧ CNAME memWriter ⟨[], none, none⟩ mockHandlerMessage 300
              [bytesOf "cname.example.com"] bad = none) :=
  ⟨by decide, by decide, by decide,
   C25_reply_frame_amended memWriter ⟨[], none, none⟩ mockHandlerMessage RcodeNameError 300
     [[1, 2, 4, 8], [1, 2, 3, 4, 5, 6, 7, 8, 9, 10, 11, 12, 13, 14, 15, 16, 17]]
     [bytesOf "cname.example.com"] [[1, 2, 4, 8]]
     (bytesOf "service1.example.com") 1000 1000 8001 [⟨10, bytesOf "ptr.example.org"⟩]
     (bytesOf "ptr.example.org") (bytesOf "iamatxtrecord") (by decide) (by decide)⟩

end Fastdns
